import Mathlib

/-!
Verification development for the `newglode` game server.

This file gives a shallow embedding, in Lean, of the parts of the Python
server that the specification's checkable claims are about:

* `shared/tiles.py`, `shared/entities.py`, `shared/player.py`  — data model
* `admin/config.py`            — content catalog (default values)
* `server/simulation.py`       — per-kind entity updaters and item transfer
* `server/inventory_manager.py`— player/entity inventory transfers
* `server/chunk.py`, `server/world.py`, `server/persistence.py` — chunks,
  world store and the sqlite-backed persistence layer
* `server/main.py`             — message handlers of the game server

Python dictionaries keyed by ids are embedded as association lists in
insertion order; in-place mutation is embedded as explicit state passing.
Python floats are embedded as rationals (`ℚ`); all scenarios proved below
use values on which float and exact arithmetic agree.  Machine item records
(`dict` values such as `\x7b'item': name\x7d` or with a `'progress'` key) are
embedded as a record with both fields, a missing `'progress'` key being
represented as progress `0` (the code never reads `'progress'` from a record
that lacks it).
-/

/-- Tile kinds, from `shared/tiles.py` (`TileType(IntEnum)`). -/
inductive TileType where
  | VOID | GRASS | DIRT | STONE | WATER
  | IRON_ORE | COPPER_ORE | GOLD_ORE | DIAMOND_ORE
  | BAUXITE_ORE | TIN_ORE | URANIUM_ORE | COAL
  deriving DecidableEq

/-- Integer value of a tile kind, as in the Python `IntEnum`. -/
def TileType.toInt : TileType → Int
  | .VOID => 0 | .GRASS => 1 | .DIRT => 2 | .STONE => 3 | .WATER => 4
  | .IRON_ORE => 5 | .COPPER_ORE => 6 | .GOLD_ORE => 7 | .DIAMOND_ORE => 8
  | .BAUXITE_ORE => 9 | .TIN_ORE => 10 | .URANIUM_ORE => 11 | .COAL => 12

/-- Partial inverse of `TileType.toInt`; `none` embeds the `ValueError`
raised by `TileType(t)` on an unknown integer. -/
def TileType.ofInt : Int → Option TileType
  | 0 => some .VOID | 1 => some .GRASS | 2 => some .DIRT | 3 => some .STONE
  | 4 => some .WATER | 5 => some .IRON_ORE | 6 => some .COPPER_ORE
  | 7 => some .GOLD_ORE | 8 => some .DIAMOND_ORE | 9 => some .BAUXITE_ORE
  | 10 => some .TIN_ORE | 11 => some .URANIUM_ORE | 12 => some .COAL
  | _ => none

/-- Entity kinds, from `shared/entities.py` (`EntityType(IntEnum)`). -/
inductive EntityType where
  | PLAYER | CONVEYOR | MINER | FURNACE | ASSEMBLER | CHEST | INSERTER
  deriving DecidableEq

/-- Integer value of an entity kind. -/
def EntityType.toInt : EntityType → Int
  | .PLAYER => 0 | .CONVEYOR => 1 | .MINER => 2 | .FURNACE => 3
  | .ASSEMBLER => 4 | .CHEST => 5 | .INSERTER => 6

/-- Partial inverse of `EntityType.toInt` (`EntityType(i)` raising on
unknown integers is embedded as `none`). -/
def EntityType.ofInt : Int → Option EntityType
  | 0 => some .PLAYER | 1 => some .CONVEYOR | 2 => some .MINER
  | 3 => some .FURNACE | 4 => some .ASSEMBLER | 5 => some .CHEST
  | 6 => some .INSERTER | _ => none

/-- Cardinal directions, from `shared/entities.py`. -/
inductive Direction where
  | NORTH | EAST | SOUTH | WEST
  deriving DecidableEq

/-- Integer value of a direction. -/
def Direction.toInt : Direction → Int
  | .NORTH => 0 | .EAST => 1 | .SOUTH => 2 | .WEST => 3

/-- Partial inverse of `Direction.toInt`. -/
def Direction.ofInt : Int → Option Direction
  | 0 => some .NORTH | 1 => some .EAST | 2 => some .SOUTH | 3 => some .WEST
  | _ => none

/-- Unit vector of a direction, from `Simulation.direction_to_delta` in
`server/simulation.py`. -/
def direction_to_delta : Direction → Int × Int
  | .NORTH => (0, -1)
  | .EAST => (1, 0)
  | .SOUTH => (0, 1)
  | .WEST => (-1, 0)


/-- Rational addition written so the kernel can evaluate it on literals
(Batteries makes `Rat.add` irreducible); `qadd_eq` proves it is ordinary
addition, so using it to embed Python float `+` is faithful. -/
def qadd (a b : ℚ) : ℚ := mkRat (a.num * b.den + b.num * a.den) (a.den * b.den)

/-- `qadd` is addition on `ℚ`. -/
theorem qadd_eq (a b : ℚ) : qadd a b = a + b := by
  rw [qadd, Rat.mkRat_eq_div]
  push_cast
  conv_rhs => rw [← Rat.num_div_den a, ← Rat.num_div_den b]
  rw [div_add_div _ _ (by exact_mod_cast a.den_nz) (by exact_mod_cast b.den_nz)]
  ring_nf

/-- Division of a rational by an integer, written so the kernel can
evaluate it; `qdiv_int_eq` proves it is ordinary division. -/
def qdiv_int (a : ℚ) (n : Int) : ℚ := Rat.divInt a.num (a.den * n)

/-- `qdiv_int` is division on `ℚ`. -/
theorem qdiv_int_eq (a : ℚ) (n : Int) : qdiv_int a n = a / (n : ℚ) := by
  rw [qdiv_int, Rat.divInt_eq_div]
  push_cast
  rw [← div_div, Rat.num_div_den]

/-- One buffered item record.  Python stores these as dicts with an
`'item'` key and, on conveyors, a `'progress'` key; a missing progress key
is embedded as `0`. -/
structure ItemRec where
  item : String
  progress : ℚ := 0
  deriving DecidableEq

/-- Kind-specific mutable state of an entity: the embedding of the
`data: dict` field of `shared/entities.py`, with one field per key the
server reads, and each field's default being the corresponding
`data.get(key, default)` fallback. -/
structure EntData where
  items : List ItemRec := []
  input : List ItemRec := []
  output : List ItemRec := []
  cooldown : Int := 0
  held_item : Option ItemRec := none
  progress : ℚ := 0
  recipe : Option String := none
  deriving DecidableEq

/-- A placed machine (or player avatar), from `shared/entities.py`.
Machine positions are integer tile coordinates. -/
structure Entity where
  id : Nat
  entity_type : EntityType
  x : Int
  y : Int
  direction : Direction := .NORTH
  data : EntData := {}
  deriving DecidableEq

/-- Per-kind catalog record, from `admin/config.py` (`EntityConfig`);
only the fields the server reads are embedded. -/
structure EntityCfg where
  id : Nat
  name : String
  buffer_size : Nat := 0
  input_buffer_size : Nat := 0
  output_buffer_size : Nat := 0
  cooldown : Int := 0
  speed : ℚ := 0
  animation_speed : ℚ := 0
  deriving DecidableEq

/-- Per-tile catalog record (`TileConfig` in `admin/config.py`). -/
structure TileCfg where
  name : String
  walkable : Bool
  resource : Option String := none
  deriving DecidableEq

/-- Furnace recipe (`FurnaceRecipe` in `admin/config.py`). -/
structure FurnaceRecipe where
  input : String
  output : String
  count : Nat
  time : Int
  deriving DecidableEq

/-- Assembler recipe (`AssemblerRecipe` in `admin/config.py`).
`ingredients` is the Python dict in insertion order. -/
structure AssemblerRecipe where
  name : String
  ingredients : List (String × Nat)
  result : String
  count : Nat
  time : Int
  deriving DecidableEq

/-- Placement rule (`PlacementRule` in `admin/config.py`). -/
structure PlacementRule where
  entity : String
  allowed_tiles : List String
  forbidden_tiles : List String
  deriving DecidableEq

/-- The content catalog (`GameConfig` in `admin/config.py`): immutable
lookup tables, embedded as lookup functions. -/
structure GameConfig where
  tiles : Int → Option TileCfg
  entities : Int → Option EntityCfg
  entities_by_name : String → Option EntityCfg
  furnace_recipes : String → Option FurnaceRecipe
  assembler_recipes : String → Option AssemblerRecipe
  placement_rules : String → Option PlacementRule

/-- Default entity table, from `GameConfig._load_default_entities`. -/
def default_entity_cfg : String → Option EntityCfg
  | "PLAYER" => some { id := 0, name := "PLAYER", speed := 5 }
  | "CONVEYOR" => some { id := 1, name := "CONVEYOR", buffer_size := 3, speed := mkRat 1 50 }
  | "MINER" => some { id := 2, name := "MINER", buffer_size := 10, cooldown := 60 }
  | "FURNACE" => some { id := 3, name := "FURNACE", input_buffer_size := 10,
                        output_buffer_size := 10, cooldown := 120 }
  | "ASSEMBLER" => some { id := 4, name := "ASSEMBLER", input_buffer_size := 10,
                          output_buffer_size := 10 }
  | "CHEST" => some { id := 5, name := "CHEST", buffer_size := 50 }
  | "INSERTER" => some { id := 6, name := "INSERTER", cooldown := 20, animation_speed := mkRat 1 20 }
  | _ => none

/-- Default entity table keyed by id, from `GameConfig._load_default_entities`. -/
def default_entity_cfg_by_id : Int → Option EntityCfg
  | 0 => default_entity_cfg "PLAYER"
  | 1 => default_entity_cfg "CONVEYOR"
  | 2 => default_entity_cfg "MINER"
  | 3 => default_entity_cfg "FURNACE"
  | 4 => default_entity_cfg "ASSEMBLER"
  | 5 => default_entity_cfg "CHEST"
  | 6 => default_entity_cfg "INSERTER"
  | _ => none

/-- Default tile table, from `GameConfig._load_default_tiles`. -/
def default_tile_cfg : Int → Option TileCfg
  | 0 => some { name := "VOID", walkable := false }
  | 1 => some { name := "GRASS", walkable := true }
  | 2 => some { name := "DIRT", walkable := true }
  | 3 => some { name := "STONE", walkable := true }
  | 4 => some { name := "WATER", walkable := false }
  | 5 => some { name := "IRON_ORE", walkable := true, resource := some "iron_ore" }
  | 6 => some { name := "COPPER_ORE", walkable := true, resource := some "copper_ore" }
  | 7 => some { name := "GOLD_ORE", walkable := true, resource := some "gold_ore" }
  | 8 => some { name := "DIAMOND_ORE", walkable := true, resource := some "diamond" }
  | 9 => some { name := "BAUXITE_ORE", walkable := true, resource := some "bauxite" }
  | 10 => some { name := "TIN_ORE", walkable := true, resource := some "tin_ore" }
  | 11 => some { name := "URANIUM_ORE", walkable := true, resource := some "uranium_ore" }
  | 12 => some { name := "COAL", walkable := true, resource := some "coal" }
  | _ => none

/-- Default furnace recipes, from `GameConfig._load_default_furnace_recipes`. -/
def default_furnace_recipes : String → Option FurnaceRecipe
  | "iron_ore" => some { input := "iron_ore", output := "iron_plate", count := 1, time := 120 }
  | "copper_ore" => some { input := "copper_ore", output := "copper_plate", count := 1, time := 120 }
  | "coal" => some { input := "coal", output := "carbon", count := 1, time := 60 }
  | _ => none

/-- Default assembler recipes, from `GameConfig._load_default_assembler_recipes`.
Note `copper_wire` produces `count = 2` results per craft. -/
def default_assembler_recipes : String → Option AssemblerRecipe
  | "iron_gear" => some { name := "iron_gear", ingredients := [("iron_plate", 2)],
                          result := "iron_gear", count := 1, time := 60 }
  | "copper_wire" => some { name := "copper_wire", ingredients := [("copper_plate", 1)],
                            result := "copper_wire", count := 2, time := 30 }
  | "circuit" => some { name := "circuit",
                        ingredients := [("iron_plate", 1), ("copper_wire", 3)],
                        result := "circuit", count := 1, time := 90 }
  | "automation_science" => some { name := "automation_science",
                                   ingredients := [("iron_gear", 1), ("circuit", 1)],
                                   result := "automation_science", count := 1, time := 120 }
  | _ => none

/-- Default placement rules, from `GameConfig._load_default_placement_rules`. -/
def default_placement_rules : String → Option PlacementRule
  | "MINER" => some { entity := "MINER",
                      allowed_tiles := ["IRON_ORE", "COPPER_ORE", "COAL"], forbidden_tiles := [] }
  | "FURNACE" => some { entity := "FURNACE",
                        allowed_tiles := ["GRASS", "DIRT", "STONE"], forbidden_tiles := ["WATER"] }
  | "ASSEMBLER" => some { entity := "ASSEMBLER",
                          allowed_tiles := ["GRASS", "DIRT", "STONE"], forbidden_tiles := ["WATER"] }
  | "CONVEYOR" => some { entity := "CONVEYOR",
                         allowed_tiles := [], forbidden_tiles := ["WATER", "VOID"] }
  | "CHEST" => some { entity := "CHEST",
                      allowed_tiles := [], forbidden_tiles := ["WATER", "VOID"] }
  | "INSERTER" => some { entity := "INSERTER",
                         allowed_tiles := [], forbidden_tiles := ["WATER", "VOID"] }
  | _ => none

/-- The default catalog, `GameConfig.load_defaults` in `admin/config.py`. -/
def defaultConfig : GameConfig where
  tiles := default_tile_cfg
  entities := default_entity_cfg_by_id
  entities_by_name := default_entity_cfg
  furnace_recipes := default_furnace_recipes
  assembler_recipes := default_assembler_recipes
  placement_rules := default_placement_rules

/-- Conveyor capacity with the inline fallback used at every call site:
`config.entities_by_name.get('CONVEYOR').buffer_size if ... else 3`. -/
def conveyor_capacity (cfg : GameConfig) : Nat :=
  match cfg.entities_by_name "CONVEYOR" with
  | some c => c.buffer_size
  | none => 3

/-- Chest capacity with its inline fallback `50`. -/
def chest_capacity (cfg : GameConfig) : Nat :=
  match cfg.entities_by_name "CHEST" with
  | some c => c.buffer_size
  | none => 50

/-- Furnace input capacity with its inline fallback `10`. -/
def furnace_input_capacity (cfg : GameConfig) : Nat :=
  match cfg.entities_by_name "FURNACE" with
  | some c => c.input_buffer_size
  | none => 10

/-- Assembler input capacity with its inline fallback `10`. -/
def assembler_input_capacity (cfg : GameConfig) : Nat :=
  match cfg.entities_by_name "ASSEMBLER" with
  | some c => c.input_buffer_size
  | none => 10

/-- Assembler output capacity with its inline fallback `10`
(`update_assembler` in `server/simulation.py`). -/
def assembler_output_capacity (cfg : GameConfig) : Nat :=
  match cfg.entities_by_name "ASSEMBLER" with
  | some c => c.output_buffer_size
  | none => 10

/-- Inserter animation speed with its inline fallback `0.05`. -/
def inserter_animation_speed (cfg : GameConfig) : ℚ :=
  match cfg.entities_by_name "INSERTER" with
  | some c => c.animation_speed
  | none => mkRat 1 20

/-- Inserter cooldown with its inline fallback `20`. -/
def inserter_cooldown_cfg (cfg : GameConfig) : Int :=
  match cfg.entities_by_name "INSERTER" with
  | some c => c.cooldown
  | none => 20

/-- Tile-to-resource lookup, `GameConfig.get_resource_for_tile`. -/
def get_resource_for_tile (cfg : GameConfig) (tile_id : Int) : Option String :=
  match cfg.tiles tile_id with
  | some t => t.resource
  | none => none

/-- Placement legality, `GameConfig.can_place_entity` in `admin/config.py`. -/
def can_place_entity (cfg : GameConfig) (entity_name tile_name : String) : Bool :=
  match cfg.placement_rules entity_name with
  | none => true
  | some rule =>
    if tile_name ∈ rule.forbidden_tiles then false
    else if rule.allowed_tiles = [] then true
    else tile_name ∈ rule.allowed_tiles

/-- An inventory slot (`InventorySlot` in `shared/player.py`). -/
structure InventorySlot where
  item : String
  count : Nat
  deriving DecidableEq

/-- A player inventory: a fixed-length list of optional slots
(`Inventory.slots` in `shared/player.py`, `MAX_SLOTS = 40`). -/
abbrev Inventory := List (Option InventorySlot)

/-- Number of inventory slots (`Inventory.MAX_SLOTS`). -/
def MAX_SLOTS : Nat := 40

/-- Maximum stack size per slot (`Inventory.MAX_STACK`). -/
def MAX_STACK : Nat := 100

/-- A fresh, empty inventory (`Inventory.__init__`). -/
def Inventory.empty : Inventory := List.replicate MAX_SLOTS none

/-- Total count of an item across all slots, `Inventory.count_item`. -/
def count_item : Inventory → String → Nat
  | [], _ => 0
  | none :: rest, item => count_item rest item
  | some s :: rest, item =>
    (if s.item = item then s.count else 0) + count_item rest item

/-- First pass of `Inventory.add_item`: top up existing stacks of the same
item, in slot order, returning the updated slots and the remainder. -/
def add_item_fill : Inventory → String → Nat → Inventory × Nat
  | [], _, remaining => ([], remaining)
  | s :: rest, item, remaining =>
    match s with
    | some slot =>
      if slot.item = item ∧ slot.count < MAX_STACK ∧ 0 < remaining then
        let to_add := min (MAX_STACK - slot.count) remaining
        let (rest', rem') := add_item_fill rest item (remaining - to_add)
        (some { slot with count := slot.count + to_add } :: rest', rem')
      else
        let (rest', rem') := add_item_fill rest item remaining
        (some slot :: rest', rem')
    | none =>
      let (rest', rem') := add_item_fill rest item remaining
      (none :: rest', rem')

/-- Second pass of `Inventory.add_item`: open empty slots in order. -/
def add_item_open : Inventory → String → Nat → Inventory × Nat
  | [], _, remaining => ([], remaining)
  | s :: rest, item, remaining =>
    match s with
    | none =>
      if 0 < remaining then
        let to_add := min MAX_STACK remaining
        let (rest', rem') := add_item_open rest item (remaining - to_add)
        (some { item := item, count := to_add } :: rest', rem')
      else
        let (rest', rem') := add_item_open rest item remaining
        (none :: rest', rem')
    | some slot =>
      let (rest', rem') := add_item_open rest item remaining
      (some slot :: rest', rem')

/-- `Inventory.add_item`: fill existing stacks first, then empty slots;
returns the new slots and the overflow that did not fit. -/
def add_item (inv : Inventory) (item : String) (count : Nat) : Inventory × Nat :=
  let (inv1, rem1) := add_item_fill inv item count
  add_item_open inv1 item rem1

/-- `Inventory.remove_item`: take from later slots first (the Python loop
iterates indices in reverse, so the list tail is processed before the
head); returns the new slots and the count actually removed. -/
def remove_item : Inventory → String → Nat → Inventory × Nat
  | [], _, _ => ([], 0)
  | s :: rest, item, count =>
    let (rest', removed) := remove_item rest item count
    let remaining := count - removed
    match s with
    | some slot =>
      if slot.item = item ∧ 0 < remaining then
        let take := min slot.count remaining
        ((if slot.count - take = 0 then none
          else some { slot with count := slot.count - take }) :: rest',
         removed + take)
      else (some slot :: rest', removed)
    | none => (none :: rest', removed)

/-- `Inventory.swap_slots`: unconditional swap when both indices are in
bounds, otherwise a no-op. -/
def swap_slots (inv : Inventory) (i j : Nat) : Inventory :=
  if i < MAX_SLOTS ∧ j < MAX_SLOTS then
    let vi := (inv.getD i none)
    let vj := (inv.getD j none)
    (inv.set i vj).set j vi
  else inv

/-- A player (`Player` in `shared/player.py`); positions are floats in
Python, embedded as rationals. -/
structure Player where
  id : Nat
  name : String
  x : ℚ := 0
  y : ℚ := 0
  inventory : Inventory := Inventory.empty
  deriving DecidableEq

/-- Serialized inventory (`Inventory.to_dict`): the `slots` list. -/
structure InvDict where
  slots : List (Option InventorySlot)
  deriving DecidableEq

/-- `Inventory.to_dict` in `shared/player.py`. -/
def Inventory.to_dict (inv : Inventory) : InvDict := { slots := inv }

/-- `Inventory.from_dict` in `shared/player.py`: starts from a fresh
inventory and copies at most `MAX_SLOTS` serialized slots into place. -/
def Inventory.from_dict (d : InvDict) : Inventory :=
  (List.range MAX_SLOTS).map fun i =>
    match (d.slots.getD i none) with
    | some s => if i < d.slots.length then some s else none
    | none => none

/-- Serialized entity (`Entity.to_dict` in `shared/entities.py`).  The
kind-specific `data` dict passes through serialization unchanged, so it is
embedded structurally. -/
structure EntityDict where
  id : Nat
  type : Int
  x : Int
  y : Int
  dir : Int
  data : EntData
  deriving DecidableEq

/-- `Entity.to_dict`. -/
def Entity.to_dict (e : Entity) : EntityDict where
  id := e.id
  type := e.entity_type.toInt
  x := e.x
  y := e.y
  dir := e.direction.toInt
  data := e.data

/-- `Entity.from_dict`; `none` embeds the `ValueError` raised by
`EntityType(...)` / `Direction(...)` on invalid integers. -/
def Entity.from_dict (d : EntityDict) : Option Entity :=
  match EntityType.ofInt d.type, Direction.ofInt d.dir with
  | some t, some dir =>
    some { id := d.id, entity_type := t, x := d.x, y := d.y,
           direction := dir, data := d.data }
  | _, _ => none

/-- A chunk (`Chunk` in `server/chunk.py`).  `entities` embeds the Python
`Dict[int, Entity]` in insertion order, each entity keyed by its own id. -/
structure Chunk where
  cx : Int
  cy : Int
  tiles : List (List TileType) := []
  entities : List Entity := []
  dirty : Bool := false
  deriving DecidableEq

/-- Chunk edge length, `CHUNK_SIZE`.  Modelled from the spec:
`shared/constants.py` is not under `src/`; the spec fixes
`CHUNK_SIZE = 32` (§3), matching the catalog default. -/
def CHUNK_SIZE : Int := 32

/-- Player view distance in chunks, `PLAYER_VIEW_DISTANCE`.  Modelled from
the spec: `shared/constants.py` is not under `src/`; the spec fixes
`VIEW_DIST = 3` (§4.3), matching the catalog default. -/
def PLAYER_VIEW_DISTANCE : Int := 3

/-- `Chunk.get_tile`: bounds-checked local lookup, `VOID` outside. -/
def Chunk.get_tile (c : Chunk) (lx ly : Int) : TileType :=
  if 0 ≤ lx ∧ lx < CHUNK_SIZE ∧ 0 ≤ ly ∧ ly < CHUNK_SIZE then
    ((c.tiles.getD ly.toNat []).getD lx.toNat TileType.VOID)
  else TileType.VOID

/-- `Chunk.add_entity`: insert into the entity table keyed by the entity's
id (a fresh id in every caller, hence an append) and set `dirty`. -/
def Chunk.add_entity (c : Chunk) (e : Entity) : Chunk :=
  { c with entities := c.entities ++ [e], dirty := true }

/-- `Chunk.remove_entity`: drop the entity with the given id, setting
`dirty` when it was present. -/
def Chunk.remove_entity (c : Chunk) (entity_id : Nat) : Chunk :=
  if c.entities.any (·.id = entity_id) then
    { c with entities := c.entities.filter (·.id ≠ entity_id), dirty := true }
  else c

/-- Serialized chunk (`Chunk.to_dict`): coords, integer tile matrix and
entity list in table order. -/
structure ChunkDict where
  cx : Int
  cy : Int
  tiles : List (List Int)
  entities : List EntityDict
  deriving DecidableEq

/-- `Chunk.to_dict` in `server/chunk.py`. -/
def Chunk.to_dict (c : Chunk) : ChunkDict where
  cx := c.cx
  cy := c.cy
  tiles := c.tiles.map (fun row => row.map TileType.toInt)
  entities := c.entities.map Entity.to_dict

/-- `Chunk.from_dict` in `server/chunk.py`; `none` embeds a decode
exception (invalid tile or entity enum value). -/
def Chunk.from_dict (d : ChunkDict) : Option Chunk := do
  let tiles ← d.tiles.mapM (fun row => row.mapM TileType.ofInt)
  let ents ← d.entities.mapM Entity.from_dict
  pure { cx := d.cx, cy := d.cy, tiles := tiles, entities := ents }

/-- The chunk generator abstracted: `Chunk.generate` delegates to
`WorldGenerator.generate_chunk_tiles(world_seed, cx, cy)`, a deterministic
pure function of its arguments (`server/world_generator.py`); the claims
below never depend on the tiles produced, so the generator is a parameter. -/
abbrev ChunkGen := Int → Int → Int → List (List TileType)

/-- The world store (`World` in `server/world.py`): chunk table, player
table and global entity index, embedded as insertion-ordered association
lists. -/
structure World where
  seed : Int
  chunks : List ((Int × Int) × Chunk) := []
  players : List (Nat × Player) := []
  entities : List Entity := []
  next_entity_id : Nat := 1
  tick : Nat := 0
  deriving DecidableEq

/-- Dict-style assignment on the chunk table: replace the value when the
key exists, otherwise insert. -/
def chunks_set (cs : List ((Int × Int) × Chunk)) (key : Int × Int) (c : Chunk) :
    List ((Int × Int) × Chunk) :=
  if cs.any (·.1 = key) then cs.map (fun p => if p.1 = key then (key, c) else p)
  else cs ++ [(key, c)]

/-- Chunk-table lookup. -/
def chunks_get (cs : List ((Int × Int) × Chunk)) (key : Int × Int) : Option Chunk :=
  (cs.find? (·.1 = key)).map (·.2)

/-- `World.get_chunk`: return the chunk if loaded, otherwise allocate a new
one and generate its tiles (`chunk.generate` sets `dirty`); returns the
chunk together with the updated world.  Note the Python method never
consults persistence. -/
def World.get_chunk (gen : ChunkGen) (w : World) (cx cy : Int) : Chunk × World :=
  match chunks_get w.chunks (cx, cy) with
  | some c => (c, w)
  | none =>
    let c : Chunk := { cx := cx, cy := cy, tiles := gen w.seed cx cy, dirty := true }
    (c, { w with chunks := chunks_set w.chunks (cx, cy) c })

/-- `World.world_to_chunk` for integer tile coordinates: Python's `//` and
`%` are floor division and nonnegative modulus, i.e. `Int.fdiv`/`Int.fmod`
for the positive divisor `CHUNK_SIZE`. -/
def world_to_chunk (x y : Int) : Int × Int × Int × Int :=
  (x.fdiv CHUNK_SIZE, y.fdiv CHUNK_SIZE, x.fmod CHUNK_SIZE, y.fmod CHUNK_SIZE)

/-- `World.get_tile` (which may load or generate the chunk). -/
def World.get_tile (gen : ChunkGen) (w : World) (x y : Int) : TileType × World :=
  let (cx, cy, lx, ly) := world_to_chunk x y
  let (c, w') := w.get_chunk gen cx cy
  (c.get_tile lx ly, w')

/-- `World.get_entity_at`: first entity in index order whose integer
position matches. -/
def World.get_entity_at (w : World) (x y : Int) : Option Entity :=
  w.entities.find? (fun e => e.x = x ∧ e.y = y)

/-- Replace the entity with the given id in the global index (the embedding
of mutating `entity.data` in place). -/
def World.set_entity (w : World) (e : Entity) : World :=
  { w with entities := w.entities.map (fun e2 => if e2.id = e.id then e else e2) }

/-- Entity-index lookup by id (`self.world.entities.get(entity_id)`). -/
def World.find_entity (w : World) (entity_id : Nat) : Option Entity :=
  w.entities.find? (·.id = entity_id)

/-- `World.create_entity`: allocate the next id, add the entity to its
chunk (loading or generating the chunk as needed) and to the global index. -/
def World.create_entity (gen : ChunkGen) (w : World) (t : EntityType) (x y : Int)
    (dir : Direction) : Entity × World :=
  let e : Entity := { id := w.next_entity_id, entity_type := t, x := x, y := y,
                      direction := dir }
  let (cx, cy, _, _) := world_to_chunk x y
  let (c, w1) := w.get_chunk gen cx cy
  let w2 := { w1 with
    chunks := chunks_set w1.chunks (cx, cy) (c.add_entity e),
    entities := w1.entities ++ [e],
    next_entity_id := w.next_entity_id + 1 }
  (e, w2)

/-- `World.remove_entity`: pop from the global index and from the owning
chunk when that chunk is loaded; returns the removed entity, if any. -/
def World.remove_entity (w : World) (entity_id : Nat) : Option Entity × World :=
  match w.find_entity entity_id with
  | none => (none, w)
  | some e =>
    let (cx, cy, _, _) := world_to_chunk e.x e.y
    let w1 := { w with entities := w.entities.filter (·.id ≠ entity_id) }
    let w2 := match chunks_get w1.chunks (cx, cy) with
      | some c => { w1 with chunks := chunks_set w1.chunks (cx, cy) (c.remove_entity entity_id) }
      | none => w1
    (some e, w2)

/-- `Simulation.insert_item_into` in `server/simulation.py`: destination
policy.  Returns the updated destination on success and `none` on
rejection (Python returns a `bool` and mutates the entity in place; note
there is no branch for `MINER`, `INSERTER` or `PLAYER` destinations). -/
def insert_item_into (cfg : GameConfig) (e : Entity) (it : ItemRec) : Option Entity :=
  match e.entity_type with
  | .CHEST =>
    if e.data.items.length < chest_capacity cfg then
      some { e with data := { e.data with items := e.data.items ++ [it] } }
    else none
  | .FURNACE =>
    if e.data.input.length < furnace_input_capacity cfg then
      some { e with data := { e.data with input := e.data.input ++ [it] } }
    else none
  | .ASSEMBLER =>
    if e.data.input.length < assembler_input_capacity cfg then
      some { e with data := { e.data with input := e.data.input ++ [it] } }
    else none
  | .CONVEYOR =>
    if e.data.items.length < conveyor_capacity cfg then
      some { e with data := { e.data with items := e.data.items ++ [{ it with progress := 0 }] } }
    else none
  | _ => none

/-- `Simulation.can_insert_into`: capacity test of the destination policy. -/
def can_insert_into (cfg : GameConfig) (e : Entity) : Bool :=
  match e.entity_type with
  | .CHEST => e.data.items.length < chest_capacity cfg
  | .FURNACE => e.data.input.length < furnace_input_capacity cfg
  | .ASSEMBLER => e.data.input.length < assembler_input_capacity cfg
  | .CONVEYOR => e.data.items.length < conveyor_capacity cfg
  | _ => false

/-- Conveyor extraction loop of `extract_item_from`: pop the first item
whose progress is at least `0.9`. -/
def extract_conveyor_item : List ItemRec → Option (ItemRec × List ItemRec)
  | [] => none
  | it :: rest =>
    if it.progress ≥ mkRat 9 10 then some (it, rest)
    else match extract_conveyor_item rest with
      | some (x, rest') => some (x, it :: rest')
      | none => none

/-- `Simulation.extract_item_from`: source policy.  Returns the extracted
item and the updated source, or `none` when the source refuses. -/
def extract_item_from (e : Entity) : Option (ItemRec × Entity) :=
  match e.entity_type with
  | .CHEST =>
    match e.data.items with
    | [] => none
    | it :: rest => some (it, { e with data := { e.data with items := rest } })
  | .FURNACE =>
    match e.data.output with
    | [] => none
    | it :: rest => some (it, { e with data := { e.data with output := rest } })
  | .MINER =>
    match e.data.output with
    | [] => none
    | it :: rest => some (it, { e with data := { e.data with output := rest } })
  | .ASSEMBLER =>
    match e.data.output with
    | [] => none
    | it :: rest => some (it, { e with data := { e.data with output := rest } })
  | .CONVEYOR =>
    match extract_conveyor_item e.data.items with
    | some (it, rest) => some (it, { e with data := { e.data with items := rest } })
    | none => none
  | _ => none

/-- `Simulation.update_inserter` in `server/simulation.py`, embedded as a
world transformer (`e` is the inserter being updated).  Note that in the
branches that return the held item to the source, the Python code ignores
the boolean result of `insert_item_into` and clears `held_item`
unconditionally. -/
def update_inserter (cfg : GameConfig) (w : World) (e : Entity) : World :=
  let cooldown := e.data.cooldown
  let animation_speed := inserter_animation_speed cfg
  let inserter_cooldown := inserter_cooldown_cfg cfg
  let (dx, dy) := direction_to_delta e.direction
  let source_entity := w.get_entity_at (e.x - dx) (e.y - dy)
  let dest_entity := w.get_entity_at (e.x + dx) (e.y + dy)
  match e.data.held_item with
  | some held =>
    let dropped : Entity :=
      { e with data :=
        { e.data with held_item := none, progress := 0, cooldown := inserter_cooldown } }
    match dest_entity with
    | none =>
      -- no destination: put the item back into the source (result ignored)
      let w1 := match source_entity with
        | some s =>
          match insert_item_into cfg s held with
          | some s' => w.set_entity s'
          | none => w
        | none => w
      w1.set_entity dropped
    | some d =>
      let progress := qadd e.data.progress animation_speed
      if progress ≥ 1 then
        let w1 := match insert_item_into cfg d held with
          | some d' => w.set_entity d'
          | none =>
            -- destination full: put the item back into the source (result ignored)
            match source_entity with
            | some s =>
              match insert_item_into cfg s held with
              | some s' => w.set_entity s'
              | none => w
            | none => w
        w1.set_entity dropped
      else
        w.set_entity { e with data := { e.data with progress := progress } }
  | none =>
    if cooldown > 0 then
      w.set_entity { e with data := { e.data with cooldown := cooldown - 1 } }
    else
      match source_entity, dest_entity with
      | some s, some d =>
        if can_insert_into cfg d then
          match extract_item_from s with
          | some (it, s') =>
            (w.set_entity s').set_entity
              { e with data := { e.data with held_item := some it, progress := 0 } }
          | none => w
        else w
      | _, _ => w

/-- Count of a given item name in a buffer, as `update_assembler` computes
via its `input_counts` dictionary. -/
def buffer_count (l : List ItemRec) (name : String) : Nat :=
  l.countP (fun it => it.item = name)

/-- Ingredient consumption loop of `update_assembler`: remove the first
`needed` occurrences of `ingredient`, preserving the order of the rest. -/
def remove_n_matching : List ItemRec → String → Nat → List ItemRec
  | [], _, _ => []
  | it :: rest, ingredient, needed =>
    if it.item = ingredient ∧ 0 < needed then
      remove_n_matching rest ingredient (needed - 1)
    else it :: remove_n_matching rest ingredient needed

/-- Output-ejection step shared by the furnace/assembler updaters: try to
push the head of `output` onto the entity at the downstream tile (conveyor
or chest only).  Returns the world (with the target, and the producer's
popped output, already written back on success) and the producer's current
output list.  In Python the pop mutates `entity.data['output']` in place,
so on success the producer in the world already has the shorter list. -/
def eject_output_head (cfg : GameConfig) (w : World) (e : Entity) :
    World × List ItemRec :=
  match e.data.output with
  | [] => (w, [])
  | head :: rest =>
    let (dx, dy) := direction_to_delta e.direction
    match w.get_entity_at (e.x + dx) (e.y + dy) with
    | none => (w, head :: rest)
    | some t =>
      match t.entity_type with
      | .CONVEYOR =>
        if t.data.items.length < conveyor_capacity cfg then
          let t' := { t with data := { t.data with
            items := t.data.items ++ [{ item := head.item, progress := 0 }] } }
          ((w.set_entity t').set_entity
            { e with data := { e.data with output := rest } }, rest)
        else (w, head :: rest)
      | .CHEST =>
        if t.data.items.length < chest_capacity cfg then
          let t' := { t with data := { t.data with
            items := t.data.items ++ [{ item := head.item }] } }
          ((w.set_entity t').set_entity
            { e with data := { e.data with output := rest } }, rest)
        else (w, head :: rest)
      | _ => (w, head :: rest)

/-- `Simulation.update_assembler` in `server/simulation.py`.  The cooldown
gate returns immediately after decrementing, before ejection; a missing or
unknown recipe also returns before ejection. -/
def update_assembler (cfg : GameConfig) (w : World) (e : Entity) : World :=
  let cooldown := e.data.cooldown
  if cooldown > 0 then
    w.set_entity { e with data := { e.data with cooldown := cooldown - 1 } }
  else
    match e.data.recipe with
    | none => w
    | some selected_recipe =>
      match cfg.assembler_recipes selected_recipe with
      | none => w
      | some recipe =>
        let (w1, output_items) := eject_output_head cfg w e
        if output_items.length ≥ assembler_output_capacity cfg then w1
        else
          let input_items := e.data.input
          let can_craft := recipe.ingredients.all
            (fun p => buffer_count input_items p.1 ≥ p.2)
          if can_craft then
            let input' := recipe.ingredients.foldl
              (fun inp p => remove_n_matching inp p.1 p.2) input_items
            let output' := output_items ++
              List.replicate recipe.count { item := recipe.result : ItemRec }
            w1.set_entity { e with data := { e.data with
              input := input', output := output', cooldown := recipe.time } }
          else w1

/-- Items buffered on one entity: conveyor/chest list, furnace/assembler
input and output, miner output, plus a held inserter item. -/
def Entity.buffered_count (e : Entity) : Nat :=
  e.data.items.length + e.data.input.length + e.data.output.length +
    (match e.data.held_item with | some _ => 1 | none => 0)

/-- Total number of items buffered across all entities of the world. -/
def World.item_total (w : World) : Nat :=
  (w.entities.map Entity.buffered_count).sum

/-- Transfer loop of `InventoryManager.transfer_to_entity`: append up to
`n` copies of the item to the buffer, stopping at the capacity; returns
the new buffer and the number appended. -/
def append_loop (buf : List ItemRec) (item : String) (cap : Nat) : Nat → List ItemRec × Nat
  | 0 => (buf, 0)
  | n + 1 =>
    if buf.length ≥ cap then (buf, 0)
    else
      let (buf', k) := append_loop (buf ++ [{ item := item }]) item cap n
      (buf', k + 1)

/-- `InventoryManager.transfer_to_entity` in `server/inventory_manager.py`.
Capacities are the hard-coded literals `50` / `10` of the source (marked
`TODO: depuis config` there), not catalog lookups.  Returns the updated
world and player together with the count transferred. -/
def transfer_to_entity (w : World) (p : Player) (entity_id : Nat) (item : String)
    (count : Int) : World × Player × Nat :=
  match w.find_entity entity_id with
  | none => (w, p, 0)
  | some e =>
    let available := count_item p.inventory item
    let to_transfer := min count (available : Int)
    if to_transfer ≤ 0 then (w, p, 0)
    else
      let n := to_transfer.toNat
      let finish (w' : World) (transferred : Nat) : World × Player × Nat :=
        if 0 < transferred then
          (w', { p with inventory := (remove_item p.inventory item transferred).1 },
           transferred)
        else (w', p, 0)
      match e.entity_type with
      | .CHEST =>
        let (items', transferred) := append_loop e.data.items item 50 n
        finish (w.set_entity { e with data := { e.data with items := items' } }) transferred
      | .FURNACE =>
        let (input', transferred) := append_loop e.data.input item 10 n
        finish (w.set_entity { e with data := { e.data with input := input' } }) transferred
      | .ASSEMBLER =>
        let (input', transferred) := append_loop e.data.input item 10 n
        finish (w.set_entity { e with data := { e.data with input := input' } }) transferred
      | _ => (w, p, 0)

/-- Transfer loop of `InventoryManager.transfer_from_entity`: up to `n`
times, find the first matching record in the buffer, add one to the
inventory, and remove it on success; stop on a missing match or a full
inventory. -/
def transfer_from_loop (item : String) :
    Nat → Inventory → List ItemRec → Inventory × List ItemRec × Nat
  | 0, inv, buf => (inv, buf, 0)
  | n + 1, inv, buf =>
    match buf.findIdx? (fun s => s.item = item) with
    | none => (inv, buf, 0)
    | some idx =>
      let (inv', overflow) := add_item inv item 1
      if overflow = 0 then
        let (inv2, buf2, t) := transfer_from_loop item n inv' (buf.eraseIdx idx)
        (inv2, buf2, t + 1)
      else (inv, buf, 0)

/-- `InventoryManager.transfer_from_entity` in `server/inventory_manager.py`. -/
def transfer_from_entity (w : World) (p : Player) (entity_id : Nat) (item : String)
    (count : Int) : World × Player × Nat :=
  match w.find_entity entity_id with
  | none => (w, p, 0)
  | some e =>
    match e.entity_type with
    | .CHEST =>
      let (inv', items', t) := transfer_from_loop item count.toNat p.inventory e.data.items
      (w.set_entity { e with data := { e.data with items := items' } },
       { p with inventory := inv' }, t)
    | .FURNACE =>
      let (inv', out', t) := transfer_from_loop item count.toNat p.inventory e.data.output
      (w.set_entity { e with data := { e.data with output := out' } },
       { p with inventory := inv' }, t)
    | .ASSEMBLER =>
      let (inv', out', t) := transfer_from_loop item count.toNat p.inventory e.data.output
      (w.set_entity { e with data := { e.data with output := out' } },
       { p with inventory := inv' }, t)
    | .MINER =>
      let (inv', out', t) := transfer_from_loop item count.toNat p.inventory e.data.output
      (w.set_entity { e with data := { e.data with output := out' } },
       { p with inventory := inv' }, t)
    | _ => (w, p, 0)

/-- Conveyor branch of `pickup_from_ground`: try each item in order; a
picked item is removed, a failed one is kept, and the scan continues. -/
def pickup_conveyor_items : Inventory → List ItemRec → Inventory × List ItemRec × Bool
  | inv, [] => (inv, [], false)
  | inv, it :: rest =>
    let (inv', overflow) := add_item inv it.item 1
    if overflow = 0 then
      let (inv2, rest', _) := pickup_conveyor_items inv' rest
      (inv2, rest', true)
    else
      let (inv2, rest', picked) := pickup_conveyor_items inv rest
      (inv2, it :: rest', picked)

/-- Chest branch of `pickup_from_ground`: like the conveyor branch but the
scan stops at the first item that does not fit (`break`). -/
def pickup_chest_items : Inventory → List ItemRec → Inventory × List ItemRec × Bool
  | inv, [] => (inv, [], false)
  | inv, it :: rest =>
    let (inv', overflow) := add_item inv it.item 1
    if overflow = 0 then
      let (inv2, rest', _) := pickup_chest_items inv' rest
      (inv2, rest', true)
    else (inv, it :: rest, false)

/-- Range test of `pickup_from_ground`: the source compares
`sqrt(dx^2 + dy^2) > radius` with `radius = 1.5`; both sides being
nonnegative, this is equivalent to comparing squares, which keeps the
embedding exact. -/
def out_of_pickup_range (ex ey x y : Int) : Bool :=
  let dx := ex - x
  let dy := ey - y
  ((dx * dx + dy * dy : Int) : ℚ) > mkRat 9 4

/-- Entity scan of `InventoryManager.pickup_from_ground`, over the entity
index in order, threading the inventory. -/
def pickup_scan : Inventory → List Entity → Int → Int → Inventory × List Entity × Bool
  | inv, [], _, _ => (inv, [], false)
  | inv, e :: rest, x, y =>
    if out_of_pickup_range e.x e.y x y then
      let (inv', rest', picked) := pickup_scan inv rest x y
      (inv', e :: rest', picked)
    else
      match e.entity_type with
      | .CONVEYOR =>
        let (inv', items', p1) := pickup_conveyor_items inv e.data.items
        let (inv2, rest', p2) := pickup_scan inv' rest x y
        (inv2, { e with data := { e.data with items := items' } } :: rest', p1 || p2)
      | .CHEST =>
        let (inv', items', p1) := pickup_chest_items inv e.data.items
        let (inv2, rest', p2) := pickup_scan inv' rest x y
        (inv2, { e with data := { e.data with items := items' } } :: rest', p1 || p2)
      | _ =>
        let (inv', rest', picked) := pickup_scan inv rest x y
        (inv', e :: rest', picked)

/-- `InventoryManager.pickup_from_ground` (radius defaulted to `1.5`). -/
def pickup_from_ground (w : World) (p : Player) (x y : Int) : World × Player × Bool :=
  let (inv', ents', picked) := pickup_scan p.inventory w.entities x y
  ({ w with entities := ents' }, { p with inventory := inv' }, picked)

/-- `Player.can_craft` in `shared/player.py`. -/
def can_craft (inv : Inventory) (ingredients : List (String × Nat)) : Bool :=
  ingredients.all (fun pr => count_item inv pr.1 ≥ pr.2)

/-- `Player.craft`: consume the ingredients, add the result, and report
whether everything fit (ingredients are consumed before the overflow
check, exactly as in the source). -/
def player_craft (p : Player) (ingredients : List (String × Nat)) (result : String)
    (count : Nat) : Player × Bool :=
  if can_craft p.inventory ingredients then
    let inv1 := ingredients.foldl (fun inv pr => (remove_item inv pr.1 pr.2).1) p.inventory
    let (inv2, overflow) := add_item inv1 result count
    ({ p with inventory := inv2 }, overflow = 0)
  else (p, false)

/-- `InventoryManager.craft_item` in `server/inventory_manager.py`. -/
def craft_item (cfg : GameConfig) (p : Player) (recipe_name : String) : Player × Bool :=
  match cfg.assembler_recipes recipe_name with
  | none => (p, false)
  | some recipe =>
    if can_craft p.inventory recipe.ingredients then
      player_craft p recipe.ingredients recipe.result recipe.count
    else (p, false)

/-- `InventoryManager.mine_resource`: look up the resource of the tile
under `(x, y)` (which may load or generate the chunk) and add one to the
inventory; returns the mined item name on success. -/
def mine_resource (cfg : GameConfig) (gen : ChunkGen) (w : World) (p : Player)
    (x y : Int) : World × Player × Option String :=
  let (tile, w') := w.get_tile gen x y
  match get_resource_for_tile cfg tile.toInt with
  | some resource =>
    let (inv', overflow) := add_item p.inventory resource 1
    if overflow = 0 then (w', { p with inventory := inv' }, some resource)
    else (w', p, none)
  | none => (w', p, none)

/-- One row of the `players` table (`server/persistence.py`).  The `data`
blob is the parsed JSON object stored in the row; `save_player` always
writes the text of the empty object, so the blob never carries an
inventory. -/
structure PlayerRow where
  name : String
  x : ℚ
  y : ℚ
  data : List (String × InvDict)
  deriving DecidableEq

/-- The `players` table, newest row first (`INSERT OR REPLACE` keyed by
id is embedded as prepend plus first-match lookup). -/
abbrev PlayerDB := List (Nat × PlayerRow)

/-- `Persistence.save_player`: stores id, name, x, y and the constant
empty JSON object as the `data` blob — the inventory is not serialized. -/
def save_player (db : PlayerDB) (p : Player) : PlayerDB :=
  (p.id, { name := p.name, x := p.x, y := p.y, data := [] }) :: db

/-- Result of `Persistence.load_player`: the dict
with keys `name`, `x`, `y`, `data`.  The `inventory` field embeds
the *absence* of an `'inventory'` key in that dict: `load_player` never
produces one, so it is always `none` here. -/
structure LoadedPlayer where
  name : String
  x : ℚ
  y : ℚ
  data : List (String × InvDict)
  inventory : Option InvDict := none
  deriving DecidableEq

/-- `Persistence.load_player`. -/
def load_player (db : PlayerDB) (player_id : Nat) : Option LoadedPlayer :=
  (db.find? (·.1 = player_id)).map
    (fun r => { name := r.2.name, x := r.2.x, y := r.2.y, data := r.2.data })

/-- The `chunks` table, newest row first (`INSERT OR REPLACE` keyed by
`(cx, cy)` is embedded as prepend plus first-match lookup). -/
abbrev ChunkDB := List ((Int × Int) × ChunkDict)

/-- `Persistence.save_chunk`: serialize and store the chunk, then clear
its dirty flag; returns the table and the chunk as mutated. -/
def save_chunk (db : ChunkDB) (c : Chunk) : ChunkDB × Chunk :=
  (((c.cx, c.cy), c.to_dict) :: db, { c with dirty := false })

/-- `Persistence.load_chunk`: `none` when the row is missing, and
`some none` when the row exists but decoding raises (the exception
propagates to the caller). -/
def load_chunk (db : ChunkDB) (cx cy : Int) : Option (Option Chunk) :=
  (db.find? (·.1 = (cx, cy))).map (fun r => Chunk.from_dict r.2)

/-- Python `int()` truncation toward zero, for defaulting pickup
coordinates from the player's float position. -/
def int_trunc (q : ℚ) : Int := q.num.tdiv q.den

/-- Dict-style assignment on an association list: replace the value when
the key exists, otherwise insert at the end (Python dict semantics). -/
def dict_set {α β : Type} [DecidableEq α] (l : List (α × β)) (k : α) (v : β) :
    List (α × β) :=
  if l.any (·.1 = k) then l.map (fun p => if p.1 = k then (k, v) else p)
  else l ++ [(k, v)]

/-- A session (`ClientConnection` in `server/main.py`); only the fields
the handlers read are embedded (the socket and read buffer are I/O). -/
structure ClientConn where
  player_id : Nat := 0
  authenticated : Bool := false
  subscribed_chunks : List (Int × Int) := []
  deriving DecidableEq

/-- The whole server state the message handlers touch: session table,
world, and the two persistence tables. -/
structure ServerState where
  clients : List (Nat × ClientConn) := []
  world : World
  playerDB : PlayerDB := []
  chunkDB : ChunkDB := []
  deriving DecidableEq

/-- Server-to-client messages produced by the handlers, with the payload
fields each carries on the wire. -/
inductive OutMsg where
  | auth_response (player_id : Nat) (x y : ℚ) (tick : Nat)
  | inventory_update (inv : InvDict)
  | player_join (id : Nat) (name : String) (x y : ℚ)
  | player_leave (id : Nat)
  | player_move (id : Nat) (x y : ℚ)
  | chunk_data (c : ChunkDict)
  | entity_add (e : EntityDict)
  | entity_update (e : EntityDict)
  | entity_remove (id : Nat)
  | sync_reply (server_time client_time : Int) (tick : Nat)
  deriving DecidableEq

/-- Outgoing wire traffic: which session each message is sent to. -/
abbrev OutEvents := List (Nat × OutMsg)

/-- Payload of a `MSG_PLAYER_ACTION` message; field defaults embed the
`data.get(key, default)` reads of `handle_player_action`. -/
structure ActionData where
  action : Int
  x : Int
  y : Int
  entity_type : Int := 0
  direction : Int := 0
  entity_id : Nat := 0
  recipe : Option String := none
  deriving DecidableEq

/-- Payload of a `MSG_INVENTORY_ACTION` message; `none` fields embed
missing keys (`data.get(...)` returning `None`). -/
structure InvActionData where
  action : Int
  x : Option Int := none
  y : Option Int := none
  mine : Bool := false
  item : Option String := none
  count : Int := 1
  entity_id : Option Nat := none
  slot1 : Option Nat := none
  slot2 : Option Nat := none
  recipe : Option String := none
  deriving DecidableEq

/-- Decoded client message, one constructor per message-type code the
server dispatches on (`other` covers codes with no handler). -/
inductive ClientMsg where
  | auth (name : Option String)
  | player_move (x y : ℚ)
  | chunk_request (cx cy : Int)
  | player_action (a : ActionData)
  | inventory_action (a : InvActionData)
  | sync (client_time : Int)
  | other (t : Int)
  deriving DecidableEq

/-- `GameServer.send_to`: one message to one session (nothing when the
session is gone). -/
def send_to (s : ServerState) (client_id : Nat) (m : OutMsg) : OutEvents :=
  if s.clients.any (·.1 = client_id) then [(client_id, m)] else []

/-- `GameServer.broadcast`: one message to every session. -/
def broadcast (s : ServerState) (m : OutMsg) : OutEvents :=
  s.clients.map (fun c => (c.1, m))

/-- `GameServer.broadcast_except`: every session except one.  Note the
recipients are all connected sessions — the subscribed-chunk sets play no
part. -/
def broadcast_except (s : ServerState) (exclude_id : Nat) (m : OutMsg) : OutEvents :=
  (s.clients.filter (·.1 ≠ exclude_id)).map (fun c => (c.1, m))

/-- `GameServer.broadcast_to_chunk_subscribers`: every session whose
subscription set contains the chunk. -/
def broadcast_to_chunk_subscribers (s : ServerState) (chunk_key : Int × Int)
    (m : OutMsg) : OutEvents :=
  (s.clients.filter (fun c => chunk_key ∈ c.2.subscribed_chunks)).map
    (fun c => (c.1, m))

/-- `GameServer.send_inventory_update`: the owning player's full
inventory snapshot. -/
def send_inventory_update (s : ServerState) (client_id : Nat) : OutEvents :=
  match s.world.players.find? (·.1 = client_id) with
  | some (_, p) => send_to s client_id (.inventory_update p.inventory.to_dict)
  | none => []

/-- `World.get_chunks_around` in `server/world.py`: the AoI square of
chunk coordinates within `PLAYER_VIEW_DISTANCE` of the player's chunk
(a Python set; embedded as a duplicate-free list in loop order). -/
def get_chunks_around (x y : ℚ) : List (Int × Int) :=
  let cx : Int := ⌊qdiv_int x CHUNK_SIZE⌋
  let cy : Int := ⌊qdiv_int y CHUNK_SIZE⌋
  (List.range (2 * PLAYER_VIEW_DISTANCE + 1).toNat).flatMap (fun i =>
    (List.range (2 * PLAYER_VIEW_DISTANCE + 1).toNat).map (fun j =>
      (cx + (i : Int) - PLAYER_VIEW_DISTANCE, cy + (j : Int) - PLAYER_VIEW_DISTANCE)))

/-- New-chunk loop of `update_chunk_subscriptions`: for each chunk key,
consult persistence first (replacing any in-memory chunk on a hit), else
`World.get_chunk`; collects the chunks sent as `CHUNK_DATA` in order.  The
final flag is `false` when a persisted row fails to decode — the Python
exception aborts the rest of the handler. -/
def load_new_chunks (gen : ChunkGen) (db : ChunkDB) (w : World) :
    List (Int × Int) → World × List Chunk × Bool
  | [] => (w, [], true)
  | (cx, cy) :: rest =>
    match load_chunk db cx cy with
    | some (some c) =>
      let w' := { w with chunks := chunks_set w.chunks (cx, cy) c }
      let (w2, cs, ok) := load_new_chunks gen db w' rest
      (w2, c :: cs, ok)
    | some none => (w, [], false)
    | none =>
      let (c, w') := w.get_chunk gen cx cy
      let (w2, cs, ok) := load_new_chunks gen db w' rest
      (w2, c :: cs, ok)

/-- `GameServer.update_chunk_subscriptions`: recompute the AoI, send
`CHUNK_DATA` for newly entered chunks (persistence consulted first), and
replace the session's subscription set. -/
def update_chunk_subscriptions (gen : ChunkGen) (s : ServerState) (client_id : Nat) :
    ServerState × OutEvents × Bool :=
  match s.clients.find? (·.1 = client_id), s.world.players.find? (·.1 = client_id) with
  | some (_, client), some (_, player) =>
    let needed_chunks := get_chunks_around player.x player.y
    let new_chunks := needed_chunks.filter (fun k => k ∉ client.subscribed_chunks)
    let (w2, sent, ok) := load_new_chunks gen s.chunkDB s.world new_chunks
    let events := sent.map (fun c => (client_id, OutMsg.chunk_data c.to_dict))
    if ok then
      let clients' := dict_set s.clients client_id
        { client with subscribed_chunks := needed_chunks }
      ({ s with world := w2, clients := clients' }, events, true)
    else ({ s with world := w2 }, events, false)
  | _, _ => (s, [], true)

/-- `GameServer.handle_player_move`: trust the client position, refresh
the AoI, then rebroadcast the move to every other session (decode
exceptions from chunk loading skip the broadcast). -/
def handle_player_move (gen : ChunkGen) (s : ServerState) (client_id : Nat)
    (x y : ℚ) : ServerState × OutEvents :=
  let w1 := match s.world.players.find? (·.1 = client_id) with
    | some (_, pl) =>
      { s.world with players := dict_set s.world.players client_id { pl with x := x, y := y } }
    | none => s.world
  let s1 := { s with world := w1 }
  let (s2, ev1, ok) := update_chunk_subscriptions gen s1 client_id
  if ok then (s2, ev1 ++ broadcast_except s2 client_id (.player_move client_id x y))
  else (s2, ev1)

/-- `GameServer.handle_chunk_request`: check persistence *first*,
replacing any in-memory chunk on a hit; only on a miss fall back to
`World.get_chunk`; then send the chunk and subscribe the session. -/
def handle_chunk_request (gen : ChunkGen) (s : ServerState) (client_id : Nat)
    (cx cy : Int) : ServerState × OutEvents :=
  let subscribe (s' : ServerState) : ServerState :=
    match s'.clients.find? (·.1 = client_id) with
    | some (_, client) =>
      let subs := if (cx, cy) ∈ client.subscribed_chunks then client.subscribed_chunks
        else client.subscribed_chunks ++ [(cx, cy)]
      let clients' := dict_set s'.clients client_id
        { client with subscribed_chunks := subs }
      { s' with clients := clients' }
    | none => s'
  match load_chunk s.chunkDB cx cy with
  | some (some c) =>
    let s1 := { s with world := { s.world with chunks := chunks_set s.world.chunks (cx, cy) c } }
    (subscribe s1, send_to s1 client_id (.chunk_data c.to_dict))
  | some none => (s, [])
  | none =>
    let (c, w') := s.world.get_chunk gen cx cy
    let s1 := { s with world := w' }
    (subscribe s1, send_to s1 client_id (.chunk_data c.to_dict))

/-- `GameServer.handle_auth`: mark the session authenticated, load or
create the player (the loaded record never carries an `'inventory'` key,
see `load_player`), store it in the world, and emit the handshake
messages. -/
def handle_auth (s : ServerState) (client_id : Nat) (name_field : Option String) :
    ServerState × OutEvents :=
  match s.clients.find? (·.1 = client_id) with
  | none => (s, [])
  | some (_, client) =>
    let name := name_field.getD ("Player" ++ toString client_id)
    let client' := { client with authenticated := true, player_id := client_id }
    let s1 := { s with clients := dict_set s.clients client_id client' }
    let player : Player :=
      match load_player s1.playerDB client_id with
      | some pd =>
        let base : Player := { id := client_id, name := pd.name, x := pd.x, y := pd.y }
        match pd.inventory with
        | some inv => { base with inventory := Inventory.from_dict inv }
        | none => base
      | none => { id := client_id, name := name }
    let s2 := { s1 with world :=
      { s1.world with players := dict_set s1.world.players client_id player } }
    let ev1 := send_to s2 client_id (.auth_response client_id player.x player.y s2.world.tick)
    let ev2 := send_to s2 client_id (.inventory_update player.inventory.to_dict)
    let ev3 := (s2.world.players.filter (·.1 ≠ client_id)).map
      (fun op => (client_id, OutMsg.player_join op.1 op.2.name op.2.x op.2.y))
    let ev4 := broadcast_except s2 client_id (.player_join client_id name player.x player.y)
    (s2, ev1 ++ ev2 ++ ev3 ++ ev4)

/-- `GameServer.handle_player_action`: BUILD / DESTROY / CONFIGURE,
applied to the world immediately (invalid enum values abort before any
mutation, as the Python exceptions do). -/
def handle_player_action (cfg : GameConfig) (gen : ChunkGen) (s : ServerState)
    (_client_id : Nat) (a : ActionData) : ServerState × OutEvents :=
  if a.action = 1 then
    -- ACTION_BUILD
    match EntityType.ofInt a.entity_type, Direction.ofInt a.direction with
    | some entity_type, some dir =>
      let (tile, w1) := s.world.get_tile gen a.x a.y
      let s1 := { s with world := w1 }
      let tile_name := match cfg.tiles tile.toInt with
        | some tc => tc.name
        | none => "VOID"
      let entity_name := (cfg.entities entity_type.toInt).map (·.name)
      let placement_fails : Bool := match entity_name with
        | some n => !(can_place_entity cfg n tile_name)
        | none => false
      if placement_fails then (s1, [])
      else match w1.get_entity_at a.x a.y with
        | some _ => (s1, [])
        | none =>
          let (e, w2) := w1.create_entity gen entity_type a.x a.y dir
          let s2 := { s with world := w2 }
          let (cx, cy, _, _) := world_to_chunk a.x a.y
          (s2, broadcast_to_chunk_subscribers s2 (cx, cy) (.entity_add e.to_dict))
    | _, _ => (s, [])
  else if a.action = 2 then
    -- ACTION_DESTROY
    let (removed, w1) := s.world.remove_entity a.entity_id
    let s1 := { s with world := w1 }
    match removed with
    | some e =>
      let (cx, cy, _, _) := world_to_chunk e.x e.y
      (s1, broadcast_to_chunk_subscribers s1 (cx, cy) (.entity_remove a.entity_id))
    | none => (s1, [])
  else if a.action = 3 then
    -- ACTION_CONFIGURE
    match s.world.find_entity a.entity_id with
    | some e =>
      let e' := { e with data := { e.data with recipe := a.recipe } }
      let s1 := { s with world := s.world.set_entity e' }
      let (cx, cy, _, _) := world_to_chunk e.x e.y
      (s1, broadcast_to_chunk_subscribers s1 (cx, cy) (.entity_update e'.to_dict))
    | none => (s, [])
  else (s, [])

/-- Store an updated player back into the world's player table (the
embedding of the handlers mutating the shared `Player` object in place). -/
def ServerState.put_player (s : ServerState) (client_id : Nat) (p : Player) : ServerState :=
  { s with world := { s.world with players := dict_set s.world.players client_id p } }

/-- Replace the server's world (helper for threading world mutations). -/
def ServerState.put_world (s : ServerState) (w : World) : ServerState :=
  { s with world := w }

/-- `GameServer.handle_inventory_action`: PICKUP, DROP, TRANSFER_TO,
TRANSFER_FROM, SWAP and CRAFT (codes 1-6; SPLIT and SORT have no handler
in `server/main.py`).  Branches whose Python counterpart provably leaves
the player, world and outbox untouched (a `None` item or entity id, a
`None` recipe) are embedded as no-ops. -/
def handle_inventory_action (cfg : GameConfig) (gen : ChunkGen) (s : ServerState)
    (client_id : Nat) (a : InvActionData) : ServerState × OutEvents :=
  match s.world.players.find? (·.1 = client_id) with
  | none => (s, [])
  | some (_, player) =>
    if a.action = 1 then
      -- INV_ACTION_PICKUP
      let x := a.x.getD (int_trunc player.x)
      let y := a.y.getD (int_trunc player.y)
      if a.mine then
        let (w', p', mined) := mine_resource cfg gen s.world player x y
        let s' := (s.put_world w').put_player client_id p'
        (s', if mined.isSome then send_inventory_update s' client_id else [])
      else
        let (w', p', picked) := pickup_from_ground s.world player x y
        let s' := (s.put_world w').put_player client_id p'
        (s', if picked then send_inventory_update s' client_id else [])
    else if a.action = 2 then
      -- INV_ACTION_DROP (the items are destroyed; a TODO in the source)
      match a.item with
      | some item =>
        let (inv', dropped) := remove_item player.inventory item a.count.toNat
        let s' := s.put_player client_id { player with inventory := inv' }
        (s', if 0 < dropped then send_inventory_update s' client_id else [])
      | none => (s, [])
    else if a.action = 3 then
      -- INV_ACTION_TRANSFER_TO
      match a.entity_id, a.item with
      | some entity_id, some item =>
        let (w', p', k) := transfer_to_entity s.world player entity_id item a.count
        let s' := (s.put_world w').put_player client_id p'
        if 0 < k then
          let ev1 := send_inventory_update s' client_id
          let ev2 := match w'.find_entity entity_id with
            | some e =>
              let (cx, cy, _, _) := world_to_chunk e.x e.y
              broadcast_to_chunk_subscribers s' (cx, cy) (.entity_update e.to_dict)
            | none => []
          (s', ev1 ++ ev2)
        else (s', [])
      | _, _ => (s, [])
    else if a.action = 4 then
      -- INV_ACTION_TRANSFER_FROM
      match a.entity_id, a.item with
      | some entity_id, some item =>
        let (w', p', k) := transfer_from_entity s.world player entity_id item a.count
        let s' := (s.put_world w').put_player client_id p'
        if 0 < k then
          let ev1 := send_inventory_update s' client_id
          let ev2 := match w'.find_entity entity_id with
            | some e =>
              let (cx, cy, _, _) := world_to_chunk e.x e.y
              broadcast_to_chunk_subscribers s' (cx, cy) (.entity_update e.to_dict)
            | none => []
          (s', ev1 ++ ev2)
        else (s', [])
      | _, _ => (s, [])
    else if a.action = 5 then
      -- INV_ACTION_SWAP
      match a.slot1, a.slot2 with
      | some slot1, some slot2 =>
        let s' := s.put_player client_id
          { player with inventory := swap_slots player.inventory slot1 slot2 }
        (s', send_inventory_update s' client_id)
      | _, _ => (s, [])
    else if a.action = 6 then
      -- INV_ACTION_CRAFT
      match a.recipe with
      | some recipe =>
        let (p', ok) := craft_item cfg player recipe
        let s' := s.put_player client_id p'
        (s', if ok then send_inventory_update s' client_id else [])
      | none => (s, [])
    else (s, [])

/-- `GameServer.handle_message`, the dispatcher run on the network read
path for every decoded frame: AUTH is always handled; PLAYER_MOVE,
CHUNK_REQUEST, PLAYER_ACTION and INVENTORY_ACTION require the session to
be authenticated; SYNC is answered unconditionally; any other type code
is ignored.  `now` stands for `get_timestamp()`. -/
def handle_message (cfg : GameConfig) (gen : ChunkGen) (now : Int) (s : ServerState)
    (client_id : Nat) (m : ClientMsg) : ServerState × OutEvents :=
  match s.clients.find? (·.1 = client_id) with
  | none => (s, [])
  | some (_, client) =>
    match m with
    | .auth name => handle_auth s client_id name
    | .player_move x y =>
      if client.authenticated then handle_player_move gen s client_id x y else (s, [])
    | .chunk_request cx cy =>
      if client.authenticated then handle_chunk_request gen s client_id cx cy else (s, [])
    | .player_action a =>
      if client.authenticated then handle_player_action cfg gen s client_id a else (s, [])
    | .inventory_action a =>
      if client.authenticated then handle_inventory_action cfg gen s client_id a else (s, [])
    | .sync client_time =>
      (s, send_to s client_id (.sync_reply now client_time s.world.tick))
    | .other _ => (s, [])

/-- `GameServer.disconnect_client`: drop the session; for an
authenticated session, persist the player, remove it from the world and
broadcast `PLAYER_LEAVE` to the remaining sessions. -/
def disconnect_client (s : ServerState) (client_id : Nat) : ServerState × OutEvents :=
  match s.clients.find? (·.1 = client_id) with
  | none => (s, [])
  | some (_, client) =>
    let s1 := { s with clients := s.clients.filter (·.1 ≠ client_id) }
    if client.authenticated then
      let s2 := match s1.world.players.find? (·.1 = client_id) with
        | some (_, pl) => { s1 with playerDB := save_player s1.playerDB pl }
        | none => s1
      let s3 := { s2 with world :=
        { s2.world with players := s2.world.players.filter (·.1 ≠ client_id) } }
      (s3, broadcast s3 (.player_leave client_id))
    else (s1, [])

/-- A trivial chunk generator for concrete scenarios whose outcome does
not depend on generated tiles. -/
def empty_gen : ChunkGen := fun _ _ _ => []

/-- C1 scenario: an inserter holding an item, about to finish its swing,
between a miner (its source) and a chest that has become full. -/
def c1_inserter : Entity :=
  { id := 1, entity_type := .INSERTER, x := 1, y := 0, direction := .EAST,
    data := { held_item := some { item := "iron_ore" }, progress := mkRat 99 100 } }

/-- C1 scenario: the source miner, holding one buffered item. -/
def c1_miner : Entity :=
  { id := 2, entity_type := .MINER, x := 0, y := 0, direction := .EAST,
    data := { output := [{ item := "coal" }] } }

/-- C1 scenario: the destination chest, full at its capacity of 50. -/
def c1_chest : Entity :=
  { id := 3, entity_type := .CHEST, x := 2, y := 0,
    data := { items := List.replicate 50 { item := "iron_plate" } } }

/-- C1 scenario world. -/
def c1_world : World :=
  { seed := 0, entities := [c1_inserter, c1_miner, c1_chest] }

/-- C1: on a tick where the inserter's swing completes against a full
destination, the held item vanishes: the deposit fails (the chest stays
at 50), the return-to-source fails (`insert_item_into` has no MINER
branch, and its result is ignored), yet `held_item` is cleared — the
total buffered item count across the three machines drops from 52 to 51,
refuting the no-item-is-ever-destroyed claim on the code. -/
theorem c1_update_inserter_destroys_held_item :
    c1_world.item_total = 52 ∧
    (update_inserter defaultConfig c1_world c1_inserter).item_total = 51 ∧
    ((update_inserter defaultConfig c1_world c1_inserter).find_entity 3).map
      (fun e => e.data.items.length) = some 50 ∧
    ((update_inserter defaultConfig c1_world c1_inserter).find_entity 2).map
      (fun e => e.data.output.length) = some 1 ∧
    ((update_inserter defaultConfig c1_world c1_inserter).find_entity 1).map
      (fun e => e.data.held_item) = some none := by
  decide

/-- C2 scenario: an assembler configured with the default catalog's
`copper_wire` recipe (which yields `count = 2` results), output buffer at
9 of its 10-slot capacity, one `copper_plate` in input, cooldown elapsed,
nothing downstream. -/
def c2_assembler : Entity :=
  { id := 1, entity_type := .ASSEMBLER, x := 0, y := 0, direction := .EAST,
    data := { input := [{ item := "copper_plate" }],
              output := List.replicate 9 { item := "copper_wire" },
              cooldown := 0, recipe := some "copper_wire" } }

/-- C2 scenario world. -/
def c2_world : World := { seed := 0, entities := [c2_assembler] }

/-- C2: the production step checks only that the output holds fewer than
`output_buffer_size` items, then appends `recipe.count` copies — with the
default catalog's `copper_wire` recipe the output grows from 9 to 11,
exceeding its declared capacity of 10. -/
theorem c2_update_assembler_overflows_output :
    ((update_assembler defaultConfig c2_world c2_assembler).find_entity 1).map
      (fun e => e.data.output.length) = some 11 ∧
    assembler_output_capacity defaultConfig = 10 := by
  decide

/-- C3 scenario: a player with a non-empty inventory. -/
def c3_player : Player :=
  { id := 1, name := "Alice", x := 3, y := 4,
    inventory := some { item := "iron_plate", count := 5 } :: List.replicate 39 none }

/-- C3 scenario: server state with the player's session authenticated. -/
def c3_state : ServerState :=
  { clients := [(1, { player_id := 1, authenticated := true })],
    world := { seed := 0, players := [(1, c3_player)] } }

/-- C3 scenario: state after the disconnect, with a fresh unauthenticated
session under the same identity (id 1), about to re-authenticate. -/
def c3_reconnected : ServerState :=
  { disconnect_client c3_state 1 |>.1 with clients := [(1, {})] }

/-- C3: after disconnect and re-AUTH with the same identity, name and
position round-trip but the inventory comes back empty — `save_player`
writes the empty JSON object as the blob (and `handle_auth` looks for an
`'inventory'` key `load_player` never produces), so the non-empty
inventory at disconnect is lost. -/
theorem c3_reauth_loses_inventory :
    (handle_auth c3_reconnected 1 (some "Alice")).1.world.players.find? (·.1 = 1) =
      some (1, { id := 1, name := "Alice", x := 3, y := 4,
                 inventory := Inventory.empty }) ∧
    c3_player.inventory ≠ Inventory.empty := by
  decide

/-- C5 scenario: two authenticated sessions whose players sit 224 tiles
apart, far enough that their 7x7-chunk areas of interest are disjoint;
each is subscribed exactly to its own AoI. -/
def c5_state : ServerState :=
  { clients :=
      [(1, { player_id := 1, authenticated := true,
             subscribed_chunks := get_chunks_around 0 0 }),
       (2, { player_id := 2, authenticated := true,
             subscribed_chunks := get_chunks_around 224 0 })],
    world := { seed := 0,
               players := [(1, { id := 1, name := "A" }),
                           (2, { id := 2, name := "B", x := 224 })] } }

/-- C5: the two subscription sets share no chunk, yet when player 1 moves,
the rebroadcast (`broadcast_except`) goes to every other session — player
2 receives the `PLAYER_MOVE`, refuting chunk-scoped routing on the code. -/
theorem c5_player_move_reaches_disjoint_session :
    (∀ k ∈ get_chunks_around 0 0, k ∉ get_chunks_around 224 0) ∧
    (handle_player_move empty_gen c5_state 1 0 0).2 =
      [(2, OutMsg.player_move 1 0 0)] := by
  decide

/-- C6 scenario: an assembler mid-cooldown with a produced item in its
output and an empty chest downstream. -/
def c6_assembler : Entity :=
  { id := 1, entity_type := .ASSEMBLER, x := 0, y := 0, direction := .EAST,
    data := { output := [{ item := "iron_gear" }], cooldown := 5,
              recipe := some "iron_gear" } }

/-- C6 scenario: the empty destination chest. -/
def c6_chest : Entity := { id := 2, entity_type := .CHEST, x := 1, y := 0 }

/-- C6 scenario world. -/
def c6_world : World := { seed := 0, entities := [c6_assembler, c6_chest] }

/-- C6: with cooldown still positive, the update only decrements the
cooldown — the head of the output is *not* ejected into the accepting
chest, refuting the claim that the first two contract steps run
unconditionally. -/
theorem c6_no_eject_during_cooldown :
    ((update_assembler defaultConfig c6_world c6_assembler).find_entity 2).map
      (fun e => e.data.items.length) = some 0 ∧
    ((update_assembler defaultConfig c6_world c6_assembler).find_entity 1).map
      (fun e => e.data.output.length) = some 1 ∧
    ((update_assembler defaultConfig c6_world c6_assembler).find_entity 1).map
      (fun e => e.data.cooldown) = some 4 := by
  decide

/-- C7 scenario: the chunk in memory holds an entity. -/
def c7_mem_chunk : Chunk :=
  { cx := 0, cy := 0, entities := [{ id := 5, entity_type := .CHEST, x := 0, y := 0 }] }

/-- C7 scenario: the persisted copy of the same chunk, without the entity. -/
def c7_db_chunk : ChunkDict := { cx := 0, cy := 0, tiles := [], entities := [] }

/-- C7 scenario server state: chunk (0,0) both live in memory and
persisted (stale). -/
def c7_state : ServerState :=
  { clients := [(1, { player_id := 1, authenticated := true })],
    world := { seed := 0, chunks := [((0, 0), c7_mem_chunk)] },
    chunkDB := [((0, 0), c7_db_chunk)] }

/-- C7: serving a CHUNK_REQUEST for a chunk that is already loaded in
memory returns the *persisted* copy, not the live one — the reply lacks
the in-memory entity and the live chunk is overwritten by the stale copy,
refuting the prefer-live-state claim for this lookup path. -/
theorem c7_chunk_request_prefers_stale_persistence :
    (chunks_get c7_state.world.chunks (0, 0)).map (fun c => c.entities.length) =
      some 1 ∧
    (handle_chunk_request empty_gen c7_state 1 0 0).2 = [(1, .chunk_data c7_db_chunk)] ∧
    (chunks_get (handle_chunk_request empty_gen c7_state 1 0 0).1.world.chunks (0, 0)).map
      (fun c => c.entities.length) = some 0 := by
  decide

/-- C8 scenario: a single unauthenticated session. -/
def c8_state : ServerState := { clients := [(1, {})], world := { seed := 0 } }

/-- C8: a SYNC message from an unauthenticated session is answered — the
server sends a reply, refuting the claim that every non-AUTH message on an
unauthenticated session draws no reply of any kind. -/
theorem c8_unauthenticated_sync_gets_reply :
    (handle_message defaultConfig empty_gen 1000 c8_state 1 (.sync 42)).2 =
      [(1, .sync_reply 1000 42 0)] := by
  decide

/-- C4 scenario: a ready world with an all-grass chunk in memory and an
authenticated session. -/
def c4_chunk : Chunk :=
  { cx := 0, cy := 0, tiles := List.replicate 32 (List.replicate 32 TileType.GRASS) }

/-- C4 scenario server state. -/
def c4_state : ServerState :=
  { clients := [(1, { player_id := 1, authenticated := true })],
    world := { seed := 0, chunks := [((0, 0), c4_chunk)] } }

/-- C4 scenario: a BUILD action for a chest at (0, 0). -/
def c4_build : ActionData := { action := 1, x := 0, y := 0, entity_type := 5 }

/-- C4: handling the PLAYER_ACTION message mutates the world *in the same
call*, on the network read path — the entity set grows from 0 to 1 at the
moment the message is dispatched, with no ingress queue deferring it to a
tick boundary. -/
theorem c4_build_applied_on_network_path :
    c4_state.world.entities.length = 0 ∧
    (handle_message defaultConfig empty_gen 0 c4_state 1
      (.player_action c4_build)).1.world.entities.length = 1 := by
  decide

/-- C6 (amended): on any tick where an assembler's cooldown is positive,
the update only decrements the cooldown and returns — ejection and
crafting are skipped entirely (they run only on ticks with cooldown ≤ 0
and a configured, known recipe). -/
theorem c6_cooldown_gate_skips_ejection (cfg : GameConfig) (w : World) (e : Entity)
    (h : 0 < e.data.cooldown) :
    update_assembler cfg w e =
      w.set_entity { e with data := { e.data with cooldown := e.data.cooldown - 1 } } := by
  unfold update_assembler
  simp [h]

/-- C6 amended-theorem witness at the concrete mid-cooldown scenario. -/
theorem c6_cooldown_gate_skips_ejection_witness :
    update_assembler defaultConfig c6_world c6_assembler =
      c6_world.set_entity
        { c6_assembler with data :=
          { c6_assembler.data with cooldown := c6_assembler.data.cooldown - 1 } } :=
  c6_cooldown_gate_skips_ejection defaultConfig c6_world c6_assembler (by decide)

/-- C8 (amended): on an unauthenticated session, every message other than
AUTH and SYNC is ignored silently — the server state (world, sessions,
persistence) is unchanged, so nothing is mutated, no reply is sent and the
session is not dropped; a SYNC, however, is answered even without
authentication. -/
theorem c8_unauth_ignored_except_sync (cfg : GameConfig) (gen : ChunkGen) (now : Int)
    (s : ServerState) (cid : Nat) (m : ClientMsg) (p : Nat × ClientConn)
    (hfind : s.clients.find? (·.1 = cid) = some p)
    (hauth : p.2.authenticated = false) :
    ((∀ name, m ≠ ClientMsg.auth name) → (∀ t, m ≠ ClientMsg.sync t) →
      handle_message cfg gen now s cid m = (s, [])) ∧
    (∀ t, handle_message cfg gen now s cid (.sync t) =
      (s, send_to s cid (.sync_reply now t s.world.tick))) := by
  obtain ⟨cid', client⟩ := p
  have hauth' : client.authenticated = false := hauth
  constructor
  · intro hnota hnots
    unfold handle_message
    rw [hfind]
    cases m with
    | auth name => exact absurd rfl (hnota name)
    | sync t => exact absurd rfl (hnots t)
    | player_move x y => simp [hauth']
    | chunk_request cx cy => simp [hauth']
    | player_action a => simp [hauth']
    | inventory_action a => simp [hauth']
    | other t => simp
  · intro t
    unfold handle_message
    rw [hfind]

/-- C8 amended-theorem witness: a PLAYER_MOVE and a SYNC on the concrete
unauthenticated session. -/
theorem c8_unauth_ignored_except_sync_witness :
    handle_message defaultConfig empty_gen 7 c8_state 1 (.player_move 1 2) =
      (c8_state, []) ∧
    handle_message defaultConfig empty_gen 7 c8_state 1 (.sync 5) =
      (c8_state, send_to c8_state 1 (.sync_reply 7 5 c8_state.world.tick)) := by
  have h := c8_unauth_ignored_except_sync defaultConfig empty_gen 7 c8_state 1
    (.player_move 1 2) (1, {}) (by decide) (by decide)
  exact ⟨h.1 (fun name hn => by cases hn) (fun t ht => by cases ht), h.2 5⟩

/-- Replacing the value of a present key makes the first matching lookup
return it. -/
theorem find_map_replace (cs : List ((Int × Int) × Chunk)) (k : Int × Int) (c : Chunk)
    (h : cs.any (·.1 = k) = true) :
    (cs.map (fun p => if p.1 = k then (k, c) else p)).find? (·.1 = k) = some (k, c) := by
  induction cs with
  | nil => simp at h
  | cons hd tl ih =>
    simp only [List.any_cons, Bool.or_eq_true, decide_eq_true_eq] at h
    by_cases hk : hd.1 = k
    · simp [List.find?_cons, hk]
    · have h' : (tl.any (·.1 = k)) = true := by
        rcases h with h | h
        · exact absurd h hk
        · simpa using h
      rw [List.map_cons, if_neg hk, List.find?_cons_of_neg _ (by simp [hk])]
      exact ih h'

/-- Appending a row for an absent key makes the lookup return it. -/
theorem find_append_single (cs : List ((Int × Int) × Chunk)) (k : Int × Int) (c : Chunk)
    (h : cs.any (·.1 = k) = false) :
    (cs ++ [(k, c)]).find? (·.1 = k) = some (k, c) := by
  induction cs with
  | nil => simp [List.find?]
  | cons hd tl ih =>
    simp only [List.any_cons, Bool.or_eq_false_iff, decide_eq_false_iff_not] at h
    rw [List.cons_append, List.find?_cons_of_neg _ (by simp [h.1])]
    exact ih (by simpa using h.2)

/-- Dict-style chunk assignment followed by lookup of the same key. -/
theorem chunks_get_set (cs : List ((Int × Int) × Chunk)) (k : Int × Int) (c : Chunk) :
    chunks_get (chunks_set cs k c) k = some c := by
  unfold chunks_get chunks_set
  by_cases h : cs.any (·.1 = k) = true
  · rw [if_pos h, find_map_replace cs k c h]
    rfl
  · have h' : cs.any (·.1 = k) = false := Bool.eq_false_iff.mpr h
    rw [if_neg h, find_append_single cs k c h']
    rfl

/-- C7 (amended): `World.get_chunk` is idempotent and prefers live state —
an in-memory chunk is returned unchanged, and only an absent one is
allocated and generated (persistence is never consulted by this method);
the CHUNK_REQUEST path, by contrast, consults persistence *first*: when a
persisted copy exists it is the one sent to the client, and it overwrites
any in-memory chunk under that key. -/
theorem c7_get_chunk_idempotent_but_request_prefers_db :
    (∀ (gen : ChunkGen) (w : World) (cx cy : Int) (c : Chunk),
      chunks_get w.chunks (cx, cy) = some c → w.get_chunk gen cx cy = (c, w)) ∧
    (∀ (gen : ChunkGen) (s : ServerState) (cid : Nat) (cx cy : Int) (c : Chunk),
      load_chunk s.chunkDB cx cy = some (some c) →
      chunks_get (handle_chunk_request gen s cid cx cy).1.world.chunks (cx, cy) = some c ∧
      (handle_chunk_request gen s cid cx cy).2 =
        send_to { s with world :=
          { s.world with chunks := chunks_set s.world.chunks (cx, cy) c } } cid
          (.chunk_data c.to_dict)) := by
  constructor
  · intro gen w cx cy c h
    unfold World.get_chunk
    rw [h]
  · intro gen s cid cx cy c h
    unfold handle_chunk_request
    rw [h]
    constructor
    · cases hf : List.find? (fun x => x.1 = cid)
        ({ s with world :=
          { s.world with chunks := chunks_set s.world.chunks (cx, cy) c } }).clients with
      | none => simp [hf, chunks_get_set]
      | some p => simp [hf, chunks_get_set]
    · rfl

/-- C7 amended-theorem witness at the concrete stale-persistence scenario. -/
theorem c7_get_chunk_idempotent_but_request_prefers_db_witness :
    World.get_chunk empty_gen c7_state.world 0 0 = (c7_mem_chunk, c7_state.world) ∧
    chunks_get (handle_chunk_request empty_gen c7_state 1 0 0).1.world.chunks (0, 0) =
      some { cx := 0, cy := 0 } := by
  have h := c7_get_chunk_idempotent_but_request_prefers_db
  exact ⟨h.1 empty_gen c7_state.world 0 0 c7_mem_chunk (by decide),
         (h.2 empty_gen c7_state 1 0 0 { cx := 0, cy := 0 } (by decide)).1⟩

/-- `World.get_chunk` never touches the entity index. -/
theorem get_chunk_entities (gen : ChunkGen) (w : World) (cx cy : Int) :
    ((w.get_chunk gen cx cy).2).entities = w.entities := by
  unfold World.get_chunk
  cases h : chunks_get w.chunks (cx, cy) <;> simp [h]

/-- `World.get_tile` never touches the entity index. -/
theorem get_tile_entities (gen : ChunkGen) (w : World) (x y : Int) :
    ((w.get_tile gen x y).2).entities = w.entities := by
  unfold World.get_tile
  simp [get_chunk_entities]

/-- `World.create_entity` grows the entity index by exactly one. -/
theorem create_entity_length (gen : ChunkGen) (w : World) (t : EntityType)
    (x y : Int) (dir : Direction) :
    ((w.create_entity gen t x y dir).2).entities.length = w.entities.length + 1 := by
  unfold World.create_entity
  simp [get_chunk_entities]

/-- Legality of a BUILD action, phrased with the same computations the
handler performs: the placement rule admits the (possibly freshly
generated) tile under the target position, and no entity occupies it. -/
def build_legal (cfg : GameConfig) (gen : ChunkGen) (w : World) (a : ActionData)
    (et : EntityType) : Bool :=
  let r := w.get_tile gen a.x a.y
  let tile_name := match cfg.tiles r.1.toInt with
    | some tc => tc.name
    | none => "VOID"
  let ok := match (cfg.entities et.toInt).map (·.name) with
    | some n => can_place_entity cfg n tile_name
    | none => true
  ok && (r.2.get_entity_at a.x a.y).isNone

/-- C4 (amended): there is no ingress queue — for an authenticated
session, the dispatcher applies a PLAYER_ACTION synchronously, in the
same `handle_message` call that decodes it on the network read path; in
particular a legal BUILD grows the world's entity index by one before
`handle_message` returns. -/
theorem c4_player_action_applied_at_decode (cfg : GameConfig) (gen : ChunkGen)
    (now : Int) (s : ServerState) (cid : Nat) (a : ActionData) (p : Nat × ClientConn)
    (et : EntityType) (dir : Direction)
    (hfind : s.clients.find? (·.1 = cid) = some p)
    (hauth : p.2.authenticated = true) :
    handle_message cfg gen now s cid (.player_action a) =
      handle_player_action cfg gen s cid a ∧
    (a.action = 1 → EntityType.ofInt a.entity_type = some et →
      Direction.ofInt a.direction = some dir →
      build_legal cfg gen s.world a et = true →
      (handle_message cfg gen now s cid (.player_action a)).1.world.entities.length =
        s.world.entities.length + 1) := by
  obtain ⟨cid', client⟩ := p
  have hauth' : client.authenticated = true := hauth
  have hdisp : handle_message cfg gen now s cid (.player_action a) =
      handle_player_action cfg gen s cid a := by
    unfold handle_message
    rw [hfind]
    simp [hauth']
  refine ⟨hdisp, ?_⟩
  intro ha het hdir hlegal
  rw [hdisp]
  unfold handle_player_action
  rw [if_pos ha, het, hdir]
  unfold build_legal at hlegal
  cases hgt : s.world.get_tile gen a.x a.y with
  | mk tile w1 =>
    rw [hgt] at hlegal
    simp only [Bool.and_eq_true, Option.isNone_iff_eq_none] at hlegal
    obtain ⟨hok, hempty⟩ := hlegal
    have hfails : (match (cfg.entities et.toInt).map (·.name) with
        | some n => !(can_place_entity cfg n (match cfg.tiles tile.toInt with
            | some tc => tc.name
            | none => "VOID"))
        | none => false) = false := by
      cases hme : (cfg.entities et.toInt).map (·.name) with
      | none => rfl
      | some n =>
        rw [hme] at hok
        simpa using hok
    simp only [hgt, hfails, Bool.false_eq_true, if_false, hempty]
    have hents : w1.entities = s.world.entities := by
      have h := get_tile_entities gen s.world a.x a.y
      rw [hgt] at h
      exact h
    simp [create_entity_length, hents]

/-- C4 amended-theorem witness at the concrete BUILD scenario. -/
theorem c4_player_action_applied_at_decode_witness :
    handle_message defaultConfig empty_gen 0 c4_state 1 (.player_action c4_build) =
      handle_player_action defaultConfig empty_gen c4_state 1 c4_build ∧
    (handle_message defaultConfig empty_gen 0 c4_state 1
      (.player_action c4_build)).1.world.entities.length =
      c4_state.world.entities.length + 1 := by
  have h := c4_player_action_applied_at_decode defaultConfig empty_gen 0 c4_state 1
    c4_build (1, { player_id := 1, authenticated := true }) .CHEST .NORTH
    (by decide) (by decide)
  exact ⟨h.1, h.2 (by decide) (by decide) (by decide) (by decide)⟩

/-- A tile kind decodes back from its integer value. -/
theorem tile_ofInt_toInt (t : TileType) : TileType.ofInt t.toInt = some t := by
  cases t <;> rfl

/-- A row of tiles decodes back from its integer values. -/
theorem tile_row_roundtrip (r : List TileType) :
    (r.map TileType.toInt).mapM TileType.ofInt = some r := by
  induction r with
  | nil => rfl
  | cons t rest ih =>
    rw [List.map_cons, List.mapM_cons, tile_ofInt_toInt, ih]
    rfl

/-- A tile matrix decodes back from its integer values. -/
theorem tiles_roundtrip (rows : List (List TileType)) :
    (rows.map (fun r => r.map TileType.toInt)).mapM (fun r => r.mapM TileType.ofInt) =
      some rows := by
  induction rows with
  | nil => rfl
  | cons r rest ih =>
    rw [List.map_cons, List.mapM_cons, tile_row_roundtrip, ih]
    rfl

/-- An entity decodes back from its serialized dict. -/
theorem entity_roundtrip (e : Entity) : Entity.from_dict e.to_dict = some e := by
  cases e with
  | mk id t x y dir data => cases t <;> cases dir <;> rfl

/-- An entity list decodes back from its serialized dicts. -/
theorem entities_roundtrip (es : List Entity) :
    (es.map Entity.to_dict).mapM Entity.from_dict = some es := by
  induction es with
  | nil => rfl
  | cons e rest ih =>
    rw [List.map_cons, List.mapM_cons, entity_roundtrip, ih]
    rfl

/-- C10: saving a chunk and then loading the same `(cx, cy)` yields a
chunk equal to the original in coordinates, tile matrix and entity set —
everything except the `dirty` flag, which saving clears and loading
leaves unset. -/
theorem c10_chunk_save_load_roundtrip (db : ChunkDB) (c : Chunk) :
    load_chunk (save_chunk db c).1 c.cx c.cy = some (some { c with dirty := false }) := by
  unfold save_chunk load_chunk
  rw [List.find?_cons_of_pos _ (by simp)]
  simp only [Option.map_some']
  unfold Chunk.from_dict Chunk.to_dict
  rw [tiles_roundtrip, entities_roundtrip]
  rfl

/-- `remove_item` removes exactly `min n count` and the remaining total is
the truncated difference. -/
theorem remove_item_spec (inv : Inventory) (item : String) (n : Nat) :
    (remove_item inv item n).2 = min n (count_item inv item) ∧
    count_item (remove_item inv item n).1 item = count_item inv item - n := by
  induction inv with
  | nil => simp [remove_item, count_item]
  | cons s rest ih =>
    obtain ⟨ih1, ih2⟩ := ih
    cases hrec : remove_item rest item n with
    | mk rest' removed =>
      rw [hrec] at ih1 ih2
      simp only at ih1 ih2
      cases s with
      | none =>
        simp only [remove_item, hrec, count_item]
        exact ⟨ih1, ih2⟩
      | some slot =>
        simp only [remove_item, hrec, count_item]
        by_cases hcond : slot.item = item ∧ 0 < n - removed
        · rw [if_pos hcond]
          obtain ⟨hitem, hrem⟩ := hcond
          by_cases hzero : slot.count - min slot.count (n - removed) = 0
          · rw [if_pos hzero]
            simp only [count_item, hitem, if_pos rfl, ite_true]
            constructor
            · omega
            · omega
          · rw [if_neg hzero]
            simp only [count_item, hitem, if_pos rfl, ite_true]
            constructor
            · omega
            · omega
        · rw [if_neg hcond]
          simp only [count_item]
          by_cases hitem : slot.item = item
          · have hrem : ¬0 < n - removed := by tauto
            simp only [hitem, if_pos rfl, ite_true]
            constructor
            · omega
            · omega
          · simp only [if_neg hitem]
            constructor
            · omega
            · omega

/-- `append_loop` appends exactly its reported count of fresh records,
and never more than requested. -/
theorem append_loop_spec (item : String) (cap : Nat) :
    ∀ (n : Nat) (buf : List ItemRec),
      (append_loop buf item cap n).1 =
        buf ++ List.replicate (append_loop buf item cap n).2 { item := item } ∧
      (append_loop buf item cap n).2 ≤ n := by
  intro n
  induction n with
  | zero => intro buf; simp [append_loop]
  | succ m ih =>
    intro buf
    by_cases hc : buf.length ≥ cap
    · simp [append_loop, hc]
    · obtain ⟨ih1, ih2⟩ := ih (buf ++ [{ item := item }])
      cases hrec : append_loop (buf ++ [{ item := item }]) item cap m with
      | mk buf' k =>
        rw [hrec] at ih1 ih2
        simp only at ih1 ih2
        simp only [append_loop, if_neg hc, hrec]
        constructor
        · rw [ih1, List.append_assoc, List.replicate_succ]
          rfl
        · omega

/-- Counting a replicated record. -/
theorem buffer_count_replicate (item : String) (k : Nat) :
    buffer_count (List.replicate k { item := item }) item = k := by
  induction k with
  | zero => rfl
  | succ m ih => simp [buffer_count, List.replicate_succ, List.countP_cons] at ih ⊢; omega

/-- Appending `k` fresh records of an item raises its buffer count by `k`. -/
theorem buffer_count_append_replicate (buf : List ItemRec) (item : String) (k : Nat) :
    buffer_count (buf ++ List.replicate k { item := item }) item =
      buffer_count buf item + k := by
  unfold buffer_count
  rw [List.countP_append]
  have h := buffer_count_replicate item k
  unfold buffer_count at h
  omega

/-- Total count of an item across all of an entity's buffers and the held
slot. -/
def Entity.item_count (e : Entity) (item : String) : Nat :=
  buffer_count e.data.items item + buffer_count e.data.input item +
    buffer_count e.data.output item +
    (match e.data.held_item with
     | some it => if it.item = item then 1 else 0
     | none => 0)

/-- Replacing an entity by id: the first-match lookup then returns the
replacement. -/
theorem find_entity_set_entity (w : World) (eid : Nat) (e e' : Entity)
    (hid : e'.id = eid) (h : w.find_entity eid = some e) :
    (w.set_entity e').find_entity eid = some e' := by
  unfold World.find_entity at h
  unfold World.find_entity World.set_entity
  simp only
  revert h
  induction w.entities with
  | nil => simp
  | cons hd tl ih =>
    intro h
    by_cases hk : hd.id = eid
    · rw [List.map_cons, if_pos (by rw [hid]; exact hk)]
      exact List.find?_cons_of_pos _ (by simp [hid])
    · rw [List.find?_cons_of_neg _ (by simp [hk])] at h
      rw [List.map_cons, if_neg (by rw [hid]; exact hk)]
      rw [List.find?_cons_of_neg _ (by simp [hk])]
      exact ih h

/-- A first-match lookup result satisfies the predicate: the found
entity's id is the looked-up id. -/
theorem find_entity_id (w : World) (eid : Nat) (e : Entity)
    (h : w.find_entity eid = some e) : e.id = eid := by
  unfold World.find_entity at h
  have := List.find?_some h
  simpa using this

/-- C9: TRANSFER_TO conservation — the reported count `k` is exactly the
player's decrease and exactly the target's increase, and a zero transfer
(full buffer, missing entity, or a kind that accepts no direct transfer)
leaves both the inventory and the entity unchanged. -/
theorem c9_transfer_to_conservation (w : World) (p : Player) (entity_id : Nat)
    (item : String) (count : Int) :
    count_item (transfer_to_entity w p entity_id item count).2.1.inventory item +
      (transfer_to_entity w p entity_id item count).2.2 =
      count_item p.inventory item ∧
    (∀ e, w.find_entity entity_id = some e →
      ∃ e', (transfer_to_entity w p entity_id item count).1.find_entity entity_id =
          some e' ∧
        e'.item_count item = e.item_count item +
          (transfer_to_entity w p entity_id item count).2.2) ∧
    ((transfer_to_entity w p entity_id item count).2.2 = 0 →
      (transfer_to_entity w p entity_id item count).2.1 = p ∧
      (transfer_to_entity w p entity_id item count).1.find_entity entity_id =
        w.find_entity entity_id) := by
  cases hfind : w.find_entity entity_id with
  | none =>
    simp only [transfer_to_entity, hfind]
    refine ⟨by omega, ?_, fun _ => by simp⟩
    intro e h
    simp at h
  | some e =>
    have he_id : e.id = entity_id := find_entity_id w entity_id e hfind
    by_cases hle : min count ((count_item p.inventory item : Nat) : Int) ≤ 0
    · simp only [transfer_to_entity, hfind, if_pos hle]
      refine ⟨by omega, ?_, fun _ => by simp⟩
      intro e0 h0
      obtain rfl : e = e0 := Option.some.inj h0
      exact ⟨e, rfl, by simp⟩
    · cases het : e.entity_type with
      | PLAYER =>
        simp only [transfer_to_entity, hfind, if_neg hle, het]
        refine ⟨by omega, ?_, fun _ => by simp⟩
        intro e0 h0
        obtain rfl : e = e0 := Option.some.inj h0
        exact ⟨e, rfl, by simp⟩
      | CONVEYOR =>
        simp only [transfer_to_entity, hfind, if_neg hle, het]
        refine ⟨by omega, ?_, fun _ => by simp⟩
        intro e0 h0
        obtain rfl : e = e0 := Option.some.inj h0
        exact ⟨e, rfl, by simp⟩
      | MINER =>
        simp only [transfer_to_entity, hfind, if_neg hle, het]
        refine ⟨by omega, ?_, fun _ => by simp⟩
        intro e0 h0
        obtain rfl : e = e0 := Option.some.inj h0
        exact ⟨e, rfl, by simp⟩
      | FURNACE =>
        obtain hal := append_loop_spec item 10
          (min count ((count_item p.inventory item : Nat) : Int)).toNat e.data.input
        cases hrec : append_loop e.data.input item 10
            (min count ((count_item p.inventory item : Nat) : Int)).toNat with
        | mk buf' k =>
          rw [hrec] at hal
          obtain ⟨ha1, ha2⟩ := hal
          simp only at ha1 ha2
          have hresult : transfer_to_entity w p entity_id item count =
              (if 0 < k then
                (w.set_entity { e with data := { e.data with input := buf' } },
                 { p with inventory := (remove_item p.inventory item k).1 }, k)
               else
                (w.set_entity { e with data := { e.data with input := buf' } }, p, 0)) := by
            simp only [transfer_to_entity, hfind, if_neg hle, het, hrec]
          by_cases hk : 0 < k
          · have hres1 : (transfer_to_entity w p entity_id item count).1 =
                w.set_entity { e with data := { e.data with input := buf' } } := by
              rw [hresult, if_pos hk]
            have hres2 : (transfer_to_entity w p entity_id item count).2.1.inventory =
                (remove_item p.inventory item k).1 := by
              rw [hresult, if_pos hk]
            have hres3 : (transfer_to_entity w p entity_id item count).2.2 = k := by
              rw [hresult, if_pos hk]
            obtain ⟨hr1, hr2⟩ := remove_item_spec p.inventory item k
            have hk_le : k ≤ count_item p.inventory item := by omega
            refine ⟨?_, ?_, ?_⟩
            · rw [hres2, hres3]
              omega
            · intro e0 h0
              obtain rfl : e = e0 := Option.some.inj h0
              rw [hres1, hres3]
              refine ⟨{ e with data := { e.data with input := buf' } },
                find_entity_set_entity w entity_id e _ he_id hfind, ?_⟩
              simp only [Entity.item_count, ha1, buffer_count_append_replicate]
              omega
            · intro h0
              rw [hres3] at h0
              omega
          · have hk0 : k = 0 := by omega
            subst hk0
            simp only [List.replicate_zero, List.append_nil] at ha1
            subst ha1
            have he' : ({ e with data := { e.data with input := e.data.input } }) = e := rfl
            have hset := find_entity_set_entity w entity_id e e he_id hfind
            have hres1 : (transfer_to_entity w p entity_id item count).1 =
                w.set_entity e := by
              rw [hresult, if_neg hk, he']
            have hres2 : (transfer_to_entity w p entity_id item count).2.1 = p := by
              rw [hresult, if_neg hk]
            have hres3 : (transfer_to_entity w p entity_id item count).2.2 = 0 := by
              rw [hresult, if_neg hk]
            refine ⟨?_, ?_, fun _ => ⟨by rw [hres2], by rw [hres1, hset]⟩⟩
            · rw [hres2, hres3]
              omega
            · intro e0 h0
              obtain rfl : e = e0 := Option.some.inj h0
              rw [hres1, hres3]
              exact ⟨e, hset, by omega⟩
      | ASSEMBLER =>
        obtain hal := append_loop_spec item 10
          (min count ((count_item p.inventory item : Nat) : Int)).toNat e.data.input
        cases hrec : append_loop e.data.input item 10
            (min count ((count_item p.inventory item : Nat) : Int)).toNat with
        | mk buf' k =>
          rw [hrec] at hal
          obtain ⟨ha1, ha2⟩ := hal
          simp only at ha1 ha2
          have hresult : transfer_to_entity w p entity_id item count =
              (if 0 < k then
                (w.set_entity { e with data := { e.data with input := buf' } },
                 { p with inventory := (remove_item p.inventory item k).1 }, k)
               else
                (w.set_entity { e with data := { e.data with input := buf' } }, p, 0)) := by
            simp only [transfer_to_entity, hfind, if_neg hle, het, hrec]
          by_cases hk : 0 < k
          · have hres1 : (transfer_to_entity w p entity_id item count).1 =
                w.set_entity { e with data := { e.data with input := buf' } } := by
              rw [hresult, if_pos hk]
            have hres2 : (transfer_to_entity w p entity_id item count).2.1.inventory =
                (remove_item p.inventory item k).1 := by
              rw [hresult, if_pos hk]
            have hres3 : (transfer_to_entity w p entity_id item count).2.2 = k := by
              rw [hresult, if_pos hk]
            obtain ⟨hr1, hr2⟩ := remove_item_spec p.inventory item k
            have hk_le : k ≤ count_item p.inventory item := by omega
            refine ⟨?_, ?_, ?_⟩
            · rw [hres2, hres3]
              omega
            · intro e0 h0
              obtain rfl : e = e0 := Option.some.inj h0
              rw [hres1, hres3]
              refine ⟨{ e with data := { e.data with input := buf' } },
                find_entity_set_entity w entity_id e _ he_id hfind, ?_⟩
              simp only [Entity.item_count, ha1, buffer_count_append_replicate]
              omega
            · intro h0
              rw [hres3] at h0
              omega
          · have hk0 : k = 0 := by omega
            subst hk0
            simp only [List.replicate_zero, List.append_nil] at ha1
            subst ha1
            have he' : ({ e with data := { e.data with input := e.data.input } }) = e := rfl
            have hset := find_entity_set_entity w entity_id e e he_id hfind
            have hres1 : (transfer_to_entity w p entity_id item count).1 =
                w.set_entity e := by
              rw [hresult, if_neg hk, he']
            have hres2 : (transfer_to_entity w p entity_id item count).2.1 = p := by
              rw [hresult, if_neg hk]
            have hres3 : (transfer_to_entity w p entity_id item count).2.2 = 0 := by
              rw [hresult, if_neg hk]
            refine ⟨?_, ?_, fun _ => ⟨by rw [hres2], by rw [hres1, hset]⟩⟩
            · rw [hres2, hres3]
              omega
            · intro e0 h0
              obtain rfl : e = e0 := Option.some.inj h0
              rw [hres1, hres3]
              exact ⟨e, hset, by omega⟩
      | CHEST =>
        obtain hal := append_loop_spec item 50
          (min count ((count_item p.inventory item : Nat) : Int)).toNat e.data.items
        cases hrec : append_loop e.data.items item 50
            (min count ((count_item p.inventory item : Nat) : Int)).toNat with
        | mk buf' k =>
          rw [hrec] at hal
          obtain ⟨ha1, ha2⟩ := hal
          simp only at ha1 ha2
          have hresult : transfer_to_entity w p entity_id item count =
              (if 0 < k then
                (w.set_entity { e with data := { e.data with items := buf' } },
                 { p with inventory := (remove_item p.inventory item k).1 }, k)
               else
                (w.set_entity { e with data := { e.data with items := buf' } }, p, 0)) := by
            simp only [transfer_to_entity, hfind, if_neg hle, het, hrec]
          by_cases hk : 0 < k
          · have hres1 : (transfer_to_entity w p entity_id item count).1 =
                w.set_entity { e with data := { e.data with items := buf' } } := by
              rw [hresult, if_pos hk]
            have hres2 : (transfer_to_entity w p entity_id item count).2.1.inventory =
                (remove_item p.inventory item k).1 := by
              rw [hresult, if_pos hk]
            have hres3 : (transfer_to_entity w p entity_id item count).2.2 = k := by
              rw [hresult, if_pos hk]
            obtain ⟨hr1, hr2⟩ := remove_item_spec p.inventory item k
            have hk_le : k ≤ count_item p.inventory item := by omega
            refine ⟨?_, ?_, ?_⟩
            · rw [hres2, hres3]
              omega
            · intro e0 h0
              obtain rfl : e = e0 := Option.some.inj h0
              rw [hres1, hres3]
              refine ⟨{ e with data := { e.data with items := buf' } },
                find_entity_set_entity w entity_id e _ he_id hfind, ?_⟩
              simp only [Entity.item_count, ha1, buffer_count_append_replicate]
              omega
            · intro h0
              rw [hres3] at h0
              omega
          · have hk0 : k = 0 := by omega
            subst hk0
            simp only [List.replicate_zero, List.append_nil] at ha1
            subst ha1
            have he' : ({ e with data := { e.data with items := e.data.items } }) = e := rfl
            have hset := find_entity_set_entity w entity_id e e he_id hfind
            have hres1 : (transfer_to_entity w p entity_id item count).1 =
                w.set_entity e := by
              rw [hresult, if_neg hk, he']
            have hres2 : (transfer_to_entity w p entity_id item count).2.1 = p := by
              rw [hresult, if_neg hk]
            have hres3 : (transfer_to_entity w p entity_id item count).2.2 = 0 := by
              rw [hresult, if_neg hk]
            refine ⟨?_, ?_, fun _ => ⟨by rw [hres2], by rw [hres1, hset]⟩⟩
            · rw [hres2, hres3]
              omega
            · intro e0 h0
              obtain rfl : e = e0 := Option.some.inj h0
              rw [hres1, hres3]
              exact ⟨e, hset, by omega⟩
      | INSERTER =>
        simp only [transfer_to_entity, hfind, if_neg hle, het]
        refine ⟨by omega, ?_, fun _ => by simp⟩
        intro e0 h0
        obtain rfl : e = e0 := Option.some.inj h0
        exact ⟨e, rfl, by simp⟩

/-- C9 witness scenario: an empty chest. -/
def c9_chest : Entity := { id := 3, entity_type := .CHEST, x := 0, y := 0 }

/-- C9 witness scenario world. -/
def c9_world : World := { seed := 0, entities := [c9_chest] }

/-- C9 witness scenario: a player holding five plates. -/
def c9_player : Player :=
  { id := 1, name := "P",
    inventory := some { item := "iron_plate", count := 5 } :: List.replicate 39 none }

/-- C9 witness: conservation at a concrete transfer of two plates into an
empty chest. -/
theorem c9_transfer_to_conservation_witness :
    count_item (transfer_to_entity c9_world c9_player 3 "iron_plate" 2).2.1.inventory
        "iron_plate" +
      (transfer_to_entity c9_world c9_player 3 "iron_plate" 2).2.2 =
      count_item c9_player.inventory "iron_plate" ∧
    (∃ e', (transfer_to_entity c9_world c9_player 3 "iron_plate" 2).1.find_entity 3 =
        some e' ∧
      e'.item_count "iron_plate" = c9_chest.item_count "iron_plate" +
        (transfer_to_entity c9_world c9_player 3 "iron_plate" 2).2.2) := by
  have h := c9_transfer_to_conservation c9_world c9_player 3 "iron_plate" 2
  exact ⟨h.1, h.2.1 c9_chest (by decide)⟩
